import Mathlib

/-!
MOX VOX gallery rotation engine (`js/main.js`)

A shallow embedding of the gallery part of `js/main.js`: the module state
(`allImages`, `visibleImages`, `galleryItems`, `switchInterval`), the helpers
`getVisibleImageCount`, `shuffleArray`, `getRandomInterval`, `createGalleryItem`,
`updateImageInItem`, `replaceImageWithFade`, and the three entry points
`loadGalleryAssets`, `switchRandomImage` and the debounced resize handler.

Modelling conventions.

* `Math.random()` yields a real in `[0, 1)`; a draw is a fraction `num / den` with
  `num < den`, and `Math.floor(Math.random() * n)` is `num * n / den` (exact
  arithmetic, no floating-point rounding).  A function `Nat → Draw` lists the
  successive results of `Math.random()` during one call.
* A JavaScript array whose slots may be empty (`visibleImages`) is a
  `List (Option ImageName)`; `none` is an empty slot (it reads as `undefined`).
* `window.innerWidth` is a natural number, passed to each operation that reads it.
* Pixel lengths of the reviews carousel are rationals (every finite double is one).
  The release handlers of a drag, whose threshold test depends on rounding, are
  given on an arbitrary arithmetic of the host (`HostArith`, of which nothing is
  assumed) as `handleMouseUpOn` and `handleTouchEndOn`; `handleMouseUp` and
  `handleTouchEnd` are their instances without rounding.
-/

namespace MoxVox

/-- An image identifier (a file name of the manifest). -/
abbrev ImageName := String

/-- One result of `Math.random()`: the fraction `num / den`, which lies in `[0, 1)`. -/
structure Draw where
  num : Nat
  den : Nat
  lt : num < den

/-- The value of `Math.floor(Math.random() * n)` for the draw `d`, the product being
taken without rounding (the host rounds it to a double before the floor, which
gives the next integer at a draw whose product lies within half a unit in the last
place below an integer; the result is a natural number below `n` either way). -/
def Draw.floorMul (d : Draw) (n : Nat) : Nat := d.num * n / d.den

/-- The successive results of `Math.random()`. -/
abbrev Rng := Nat → Draw

/-- A gallery tile (a `div.gallery-item` with its `img`): the identifier it shows
(`data-image-name`, which also determines `img.src`), the fade classes of its
image, and the identifiers of the fade callbacks scheduled on it by
`replaceImageWithFade` and not yet run. -/
structure Tile where
  imageName : ImageName
  fadeOut : Bool
  fadeIn : Bool
  scheduled : List ImageName
  deriving DecidableEq, Repr

/-- The module-level gallery state of `main.js`, with the interval timers of the
gallery. A timer handle is a positive number (the `n`-th timer created has handle
`n`); `switchInterval` holds a handle or `none` for `null`; `intervals` lists the
live interval timers as pairs (handle, delay in ms); `timersCreated` counts the
calls of `setInterval`; `fallbackShown` tells whether `showGalleryFallback` has put
the placeholder into the container. -/
structure GalleryState where
  allImages : List ImageName
  visibleImages : List (Option ImageName)
  galleryItems : List Tile
  switchInterval : Option Nat
  intervals : List (Nat × Int)
  timersCreated : Nat
  fallbackShown : Bool
  deriving DecidableEq, Repr

/-- The state before `DOMContentLoaded`. -/
def GalleryState.initial : GalleryState :=
  { allImages := [], visibleImages := [], galleryItems := [], switchInterval := none,
    intervals := [], timersCreated := 0, fallbackShown := false }

/-- The list used when the manifest cannot be fetched (`loadGalleryAssets`, catch branch). -/
def fallbackImages : List ImageName :=
  [ "IMG_20260110_163141.jpg",
    "IMG_20260110_163022.jpg",
    "IMG_20260110_163056.jpg",
    "IMG_20260110_163122.jpg",
    "IMG_20260110_163141.jpg",
    "IMG_20260110_163201.jpg",
    "IMG_20260110_163213.jpg",
    "IMG_20260110_163242.jpg",
    "IMG_20260110_163300.jpg",
    "IMG_20260110_163317.jpg" ]

/-- Function `getVisibleImageCount`, reading `window.innerWidth = width`. -/
def getVisibleImageCount (width : Nat) : Nat :=
  if width ≤ 768 then 1
  else if width ≤ 1024 then 2
  else 4

/-- The destructuring swap `[a[i], a[j]] = [a[j], a[i]]` on an array without empty
slots, for indices inside the array (the only way `shuffleArray` uses it). -/
def swapAt {α : Type} (a : List α) (i j : Nat) : List α :=
  match a[i]?, a[j]? with
  | some x, some y => (a.set i y).set j x
  | _, _ => a

/-- The loop of `shuffleArray`: `for (let i = ...; i > 0; i--)`, where `k` counts
the calls of `Math.random()` made so far. -/
def shuffleLoop {α : Type} (rng : Rng) : Nat → Nat → List α → List α
  | _, 0, shuffled => shuffled
  | k, i + 1, shuffled =>
      let j := (rng k).floorMul (i + 1 + 1)
      shuffleLoop rng (k + 1) i (swapAt shuffled (i + 1) j)

/-- Function `shuffleArray`: a copy of `array`, shuffled by Fisher-Yates. -/
def shuffleArray {α : Type} (array : List α) (rng : Rng) : List α :=
  let shuffled := array
  shuffleLoop rng 0 (shuffled.length - 1) shuffled

/-- The loop of `shuffleArray` again, returning the pairs `(i, j)` it swaps, in order. -/
def shuffleSteps (rng : Rng) : Nat → Nat → List (Nat × Nat)
  | _, 0 => []
  | k, i + 1 => (i + 1, (rng k).floorMul (i + 1 + 1)) :: shuffleSteps rng (k + 1) i

/-- The value of `Math.floor(Math.random() * x)` for the draw `d` and an integer `x`
of any sign (integer division by the positive `den` rounds down), the product being
taken without rounding, as in `Draw.floorMul`. -/
def Draw.floorMulInt (d : Draw) (x : Int) : Int := ((d.num : Int) * x) / (d.den : Int)

/-- Function `getRandomInterval`, for the draw `d`, with the product taken without
rounding: the delay it returns is used as the one delay of the rotation timer, not
for its value. -/
def getRandomInterval (min max : Int) (d : Draw) : Int :=
  d.floorMulInt (max - min + 1) + min

/-- Function `createGalleryItem`. -/
def createGalleryItem (imageName : ImageName) : Tile :=
  { imageName := imageName, fadeOut := false, fadeIn := false, scheduled := [] }

/-- Function `updateImageInItem`: sets `img.src` and `data-image-name` at once. -/
def updateImageInItem (item : Tile) (imageName : ImageName) : Tile :=
  { item with imageName := imageName }

/-- Function `replaceImageWithFade`, up to its return: the image gets the class
`fade-out` and the callback that will show `newImageName` is scheduled. -/
def replaceImageWithFade (item : Tile) (newImageName : ImageName) : Tile :=
  { item with fadeOut := true, scheduled := item.scheduled ++ [newImageName] }

/-- The assignment `a[i] = v` on a JavaScript array: inside the array it replaces
the slot, past its end it extends the array, leaving empty slots in between. -/
def jsAssign {α : Type} (a : List (Option α)) (i : Nat) (v : α) : List (Option α) :=
  if i < a.length then a.set i (some v)
  else a ++ List.replicate (i - a.length) none ++ [some v]

/-- The read `a[i]` on a JavaScript array: `none` for `undefined`. -/
def jsRead {α : Type} (a : List (Option α)) (i : Nat) : Option α :=
  (a[i]?).join

/-- Function `startImageSwitching`; `d` is the draw `getRandomInterval` makes. -/
def startImageSwitching (prefersReducedMotion : Bool) (d : Draw) (s : GalleryState) :
    GalleryState :=
  let s := match s.switchInterval with
    | some handle => { s with intervals := s.intervals.filter (fun t => t.1 ≠ handle) }
    | none => s
  if prefersReducedMotion then s
  else
    let handle := s.timersCreated + 1
    { s with switchInterval := some handle,
             intervals := s.intervals ++ [(handle, getRandomInterval 6000 8000 d)],
             timersCreated := s.timersCreated + 1 }

/-- The call `visibleImages.forEach(...)` that creates one tile per slot and pushes
it to `galleryItems` (`forEach` skips empty slots). -/
def renderItems (visible : List (Option ImageName)) (items : List Tile) : List Tile :=
  items ++ (visible.filterMap id).map createGalleryItem

/-- Function `loadGalleryAssets`. `container` tells whether `#gallery-container`
exists; `manifest` is `manifest.images || []` when the manifest was fetched and
`none` when the fetch failed. -/
def loadGalleryAssets (container : Bool) (manifest : Option (List ImageName))
    (width : Nat) (prefersReducedMotion : Bool) (rng : Rng) (s : GalleryState) :
    GalleryState :=
  if !container then s
  else
    let images := match manifest with
      | some imgs => imgs
      | none => fallbackImages
    if images.length = 0 then { s with fallbackShown := true }
    else
      let allImages := images
      let imageCount := getVisibleImageCount width
      let shuffledImages := shuffleArray allImages rng
      let visibleImages := (shuffledImages.take imageCount).map some
      let s := { s with allImages := allImages, visibleImages := visibleImages,
                        galleryItems := renderItems visibleImages s.galleryItems }
      startImageSwitching prefersReducedMotion (rng (allImages.length - 1)) s

/-- The images of `allImages` that are not visible:
`allImages.filter(img => !visibleImages.includes(img))`. -/
def availableImages (s : GalleryState) : List ImageName :=
  s.allImages.filter (fun img => !(s.visibleImages.contains (some img)))

/-- The call `galleryItems.forEach((item, index) => ...)` of the reset branch of
`switchRandomImage`: the tiles with `index < visible.length` show `visible[index]`. -/
def updateItems (visible : List ImageName) : Nat → List Tile → List Tile
  | _, [] => []
  | index, item :: items =>
      (match visible[index]? with
        | some imageName => updateImageInItem item imageName
        | none => item) :: updateItems visible (index + 1) items

/-- Function `switchRandomImage`. -/
def switchRandomImage (width : Nat) (rng : Rng) (s : GalleryState) : GalleryState :=
  let imageCount := getVisibleImageCount width
  if s.allImages.length ≤ imageCount then s
  else
    let available := availableImages s
    if available.length = 0 then
      let shuffled := shuffleArray s.allImages rng
      let visible := shuffled.take imageCount
      { s with visibleImages := visible.map some,
               galleryItems := updateItems visible 0 s.galleryItems }
    else if s.galleryItems.length = 0 then s
    else
      let randomItemIndex := (rng 0).floorMul (min imageCount s.galleryItems.length)
      match s.galleryItems[randomItemIndex]? with
      | none => s
      | some itemToReplace =>
        match available[(rng 1).floorMul available.length]? with
        | none => s
        | some randomNewImage =>
          { s with visibleImages := jsAssign s.visibleImages randomItemIndex randomNewImage,
                   galleryItems := s.galleryItems.set randomItemIndex
                     (replaceImageWithFade itemToReplace randomNewImage) }

/-- The debounced callback of the `resize` listener of the gallery. -/
def handleGalleryResize (container : Bool) (width : Nat) (rng : Rng) (s : GalleryState) :
    GalleryState :=
  let newCount := getVisibleImageCount width
  if newCount ≠ s.visibleImages.length ∧ s.allImages.length > 0 then
    if container then
      let shuffled := shuffleArray s.allImages rng
      let visibleImages := (shuffled.take newCount).map some
      { s with visibleImages := visibleImages,
               galleryItems := renderItems visibleImages [] }
    else s
  else s

/-- The states the gallery can be in: the result of `loadGalleryAssets` on page
load, followed by any number of timer firings (`switchRandomImage`) and debounced
resize callbacks, each under any viewport width and any random draws. -/
inductive Reachable : GalleryState → Prop
  | init (container : Bool) (manifest : Option (List ImageName)) (width : Nat)
      (prefersReducedMotion : Bool) (rng : Rng) :
      Reachable (loadGalleryAssets container manifest width prefersReducedMotion rng
        GalleryState.initial)
  | rotate {s : GalleryState} (width : Nat) (rng : Rng) :
      Reachable s → Reachable (switchRandomImage width rng s)
  | resize {s : GalleryState} (container : Bool) (width : Nat) (rng : Rng) :
      Reachable s → Reachable (handleGalleryResize container width rng s)

/-- The states reached from page load by timer firings only (no resize callback). -/
inductive RotationReachable : GalleryState → Prop
  | init (container : Bool) (manifest : Option (List ImageName)) (width : Nat)
      (prefersReducedMotion : Bool) (rng : Rng) :
      RotationReachable (loadGalleryAssets container manifest width prefersReducedMotion rng
        GalleryState.initial)
  | rotate {s : GalleryState} (width : Nat) (rng : Rng) :
      RotationReachable s → RotationReachable (switchRandomImage width rng s)

/-- The identifiers held by the slots of a VisibleSet, in slot order. -/
def identifiers (visible : List (Option ImageName)) : List ImageName :=
  visible.filterMap id

/-- No identifier appears twice in the VisibleSet. -/
def VisibleUnique (s : GalleryState) : Prop := (identifiers s.visibleImages).Nodup

/-- Repeated calls of `switchRandomImage`, one per element of `calls` (the viewport
width and the random draws of that call). -/
def rotateMany (calls : List (Nat × Rng)) (s : GalleryState) : GalleryState :=
  calls.foldl (fun st c => switchRandomImage c.1 c.2 st) s

/-! ## Draw sequences of the shuffle -/

/-- The sequences of indices `j` that the loop of `shuffleArray`, started at `i = m`,
can draw: one `j` with `0 ≤ j ≤ i` for each `i = m, m - 1, ..., 1`. -/
def drawSeqs : Nat → List (List Nat)
  | 0 => [[]]
  | i + 1 => (List.range (i + 1 + 1)).flatMap (fun j => (drawSeqs i).map (fun js => j :: js))

/-- Results of `Math.random()` under which the loop of `shuffleArray`, started at
`i = m`, draws the indices `js`: call `k` (made at `i = m - k`) returns
`js[k] / (i + 1)`. -/
def drawsOf (m : Nat) (js : List Nat) : Rng := fun k =>
  match js[k]? with
  | some j => if h : j < m - k + 1 then ⟨j, m - k + 1, h⟩ else ⟨0, 1, Nat.one_pos⟩
  | none => ⟨0, 1, Nat.one_pos⟩

/-- The loop of `shuffleArray` run on given indices `j` instead of draws. -/
def shuffleWith {α : Type} : List Nat → Nat → List α → List α
  | j :: js, i + 1, a => shuffleWith js i (swapAt a (i + 1) j)
  | _, _, a => a

/-! ## The rotation timer of the gallery -/

/-- The delay of the interval timer that `switchInterval` names, when it is live. -/
def timerDelay (s : GalleryState) : Option Int :=
  match s.switchInterval with
  | some handle => (s.intervals.find? (fun t => t.1 = handle)).map (fun t => t.2)
  | none => none

/-- One firing of the interval timer set by `startImageSwitching`: its callback calls
`switchRandomImage`; without a live timer nothing fires. -/
def fireSwitchInterval (width : Nat) (rng : Rng) (s : GalleryState) : GalleryState :=
  match timerDelay s with
  | some _ => switchRandomImage width rng s
  | none => s

/-- The delays that precede the successive firings of the rotation timer in a run:
one entry per firing, the delay of the live timer at that moment (`calls` gives the
viewport width and the draws of each firing). -/
def firingDelays : List (Nat × Rng) → GalleryState → List (Option Int)
  | [], _ => []
  | c :: cs, s => timerDelay s :: firingDelays cs (fireSwitchInterval c.1 c.2 s)

/-- What happens to the gallery after page load. -/
inductive GalleryEvent where
  | timerFires (width : Nat) (rng : Rng)
  | resize (container : Bool) (width : Nat) (rng : Rng)

/-- The effect of one event on the gallery. -/
def GalleryEvent.apply (s : GalleryState) : GalleryEvent → GalleryState
  | .timerFires width rng => fireSwitchInterval width rng s
  | .resize container width rng => handleGalleryResize container width rng s

/-- The effect of a sequence of events on the gallery. -/
def runGallery (events : List GalleryEvent) (s : GalleryState) : GalleryState :=
  events.foldl GalleryEvent.apply s

/-! ## The reviews carousel (`initReviewsAnimation`) -/

/-- The inline `transition` style of the track: not set by the script yet, `none`,
or the eased `transform 0.6s cubic-bezier(0.4, 0, 0.2, 1)`. -/
inductive TrackTransition where
  | stylesheet
  | none
  | eased
  deriving DecidableEq, Repr

/-- A pending `setTimeout` callback of the carousel: the wraparound reset of
`nextSlide` (600 ms) or a call of `startSlide` (after 100 ms at initialization,
2000 ms after a mouse drag, 3000 ms after a touch drag). -/
inductive CarouselTimeout where
  | wrapReset
  | startSlide (delay : Nat)
  deriving DecidableEq, Repr

/-- The variables of the closure of `initReviewsAnimation`, the inline style of the
track and the timers of the carousel. `cardsLength` is `cards.length`; lengths in
pixels are rational numbers; `transform` is the `translateX` of the track (0 before
the script sets it); `intervals` lists the handles of the live interval timers (the
`n`-th timer created has handle `n`), `intervalsCreated` counts the calls of
`setInterval`, `timeouts` lists the pending timeout callbacks. -/
structure CarouselState where
  cardsLength : Nat
  index : Int
  totalCards : Int
  slideInterval : Option Nat
  isDragging : Bool
  startX : ℚ
  currentX : ℚ
  initialTranslate : ℚ
  touchStartX : ℚ
  touchInitialTranslate : ℚ
  transform : ℚ
  transition : TrackTransition
  draggingClass : Bool
  intervals : List Nat
  intervalsCreated : Nat
  timeouts : List CarouselTimeout
  deriving DecidableEq, Repr

/-- Function `getCardWidth`; `rectWidth` is `cards[0].getBoundingClientRect().width`. -/
def getCardWidth (cardsLength : Nat) (rectWidth : ℚ) : ℚ :=
  if cardsLength = 0 then 0
  else
    let gap := 24
    rectWidth + gap

/-- Function `updatePosition`. -/
def updatePosition (s : CarouselState) : CarouselState :=
  let translateX := s.initialTranslate + (s.currentX - s.startX)
  { s with transform := translateX }

/-- The callback of the timeout that `nextSlide` sets: back to the first card. -/
def wrapReset (s : CarouselState) : CarouselState :=
  { s with index := 0, transform := 0, initialTranslate := 0,
           transition := TrackTransition.eased }

/-- Function `nextSlide`. -/
def nextSlide (rectWidth : ℚ) (s : CarouselState) : CarouselState :=
  if s.isDragging then s
  else
    let cardWidth := getCardWidth s.cardsLength rectWidth
    let index := s.index + 1
    let translateX := -(index : ℚ) * cardWidth
    let s := { s with index := index, transform := translateX, initialTranslate := translateX }
    if index ≥ s.totalCards then
      { s with timeouts := s.timeouts ++ [CarouselTimeout.wrapReset] }
    else s

/-- Function `stopSlide`. -/
def stopSlide (s : CarouselState) : CarouselState :=
  match s.slideInterval with
  | some handle =>
      { s with intervals := s.intervals.filter (fun h => h ≠ handle), slideInterval := none }
  | none => s

/-- Function `startSlide`. -/
def startSlide (s : CarouselState) : CarouselState :=
  let s := stopSlide s
  let handle := s.intervalsCreated + 1
  { s with slideInterval := some handle, intervals := s.intervals ++ [handle],
           intervalsCreated := s.intervalsCreated + 1 }

/-- Function `handleMouseDown`; `clientX` is `e.clientX`. -/
def handleMouseDown (clientX rectWidth : ℚ) (s : CarouselState) : CarouselState :=
  stopSlide
    { s with isDragging := true, startX := clientX,
             initialTranslate := -(s.index : ℚ) * getCardWidth s.cardsLength rectWidth,
             draggingClass := true }

/-- Function `handleMouseMove`. -/
def handleMouseMove (clientX : ℚ) (s : CarouselState) : CarouselState :=
  if !s.isDragging then s
  else updatePosition { s with currentX := clientX }

/-- Function `handleMouseUp`, with arithmetic without rounding
(`handleMouseUpOn exactArith`); `handleMouseUpOn` is the function on the arithmetic
of the host. -/
def handleMouseUp (rectWidth : ℚ) (s : CarouselState) : CarouselState :=
  if !s.isDragging then s
  else
    let cardWidth := getCardWidth s.cardsLength rectWidth
    let moved := s.currentX - s.startX
    let index :=
      if |moved| > cardWidth / 3 then
        if moved > 0 ∧ s.index > 0 then s.index - 1
        else if moved < 0 ∧ s.index < s.totalCards - 1 then s.index + 1
        else s.index
      else s.index
    let translateX := -(index : ℚ) * cardWidth
    { s with isDragging := false, draggingClass := false, index := index,
             transition := TrackTransition.eased, transform := translateX,
             initialTranslate := translateX,
             timeouts := s.timeouts ++ [CarouselTimeout.startSlide 2000] }

/-- Function `handleTouchStart`; `clientX` is `e.touches[0].clientX`. -/
def handleTouchStart (clientX rectWidth : ℚ) (s : CarouselState) : CarouselState :=
  stopSlide
    { s with isDragging := true, touchStartX := clientX,
             touchInitialTranslate :=
               -(s.index : ℚ) * getCardWidth s.cardsLength rectWidth }

/-- Function `handleTouchMove`. -/
def handleTouchMove (clientX : ℚ) (s : CarouselState) : CarouselState :=
  if !s.isDragging then s
  else
    let translateX := s.touchInitialTranslate + (clientX - s.touchStartX)
    { s with transition := TrackTransition.none, transform := translateX }

/-- Function `handleTouchEnd`, with arithmetic without rounding
(`handleTouchEndOn exactArith`); `clientX` is `e.changedTouches[0].clientX`, and
`handleTouchEndOn` is the function on the arithmetic of the host. -/
def handleTouchEnd (clientX rectWidth : ℚ) (s : CarouselState) : CarouselState :=
  if !s.isDragging then s
  else
    let cardWidth := getCardWidth s.cardsLength rectWidth
    let moved := clientX - s.touchStartX
    let index :=
      if |moved| > cardWidth / 3 then
        if moved > 0 ∧ s.index > 0 then s.index - 1
        else if moved < 0 ∧ s.index < s.totalCards - 1 then s.index + 1
        else s.index
      else s.index
    let translateX := -(index : ℚ) * cardWidth
    { s with isDragging := false, index := index,
             transition := TrackTransition.eased, transform := translateX,
             timeouts := s.timeouts ++ [CarouselTimeout.startSlide 3000] }

/-- The debounced callback of the `resize` listener of the carousel. -/
def handleCarouselResize (rectWidth : ℚ) (s : CarouselState) : CarouselState :=
  let cardWidth := getCardWidth s.cardsLength rectWidth
  let translateX := -(s.index : ℚ) * cardWidth
  { s with transform := translateX, initialTranslate := translateX }

/-- The variables `initReviewsAnimation` declares, with the 100 ms timeout that will
call `startSlide`. -/
def carouselInit (cardsLength : Nat) : CarouselState :=
  { cardsLength := cardsLength, index := 0, totalCards := (cardsLength : Int) - 2,
    slideInterval := none, isDragging := false, startX := 0, currentX := 0,
    initialTranslate := 0, touchStartX := 0, touchInitialTranslate := 0,
    transform := 0, transition := TrackTransition.stylesheet, draggingClass := false,
    intervals := [], intervalsCreated := 0,
    timeouts := [CarouselTimeout.startSlide 100] }

/-- Function `initReviewsAnimation`, up to its return: `none` when it returns before
it declares its variables and adds its listeners (no track, no card, no carousel
element, or reduced motion), else the initial state. -/
def initReviewsAnimation (track : Bool) (cardsLength : Nat) (carousel : Bool)
    (prefersReducedMotion : Bool) : Option CarouselState :=
  if !track || cardsLength = 0 || !carousel then none
  else if prefersReducedMotion then none
  else some (carouselInit cardsLength)

/-- The arithmetic of the host on numbers (IEEE-754 doubles in a browser): the
results of `a + b`, `a - b`, `a * b` and `a / b`. Nothing is assumed of them; negation,
`Math.abs` and comparisons are exact. -/
structure HostArith where
  add : ℚ → ℚ → ℚ
  sub : ℚ → ℚ → ℚ
  mul : ℚ → ℚ → ℚ
  div : ℚ → ℚ → ℚ

/-- Arithmetic without rounding. -/
def exactArith : HostArith :=
  { add := fun a b => a + b, sub := fun a b => a - b, mul := fun a b => a * b,
    div := fun a b => a / b }

/-- Function `getCardWidth`, on the arithmetic `fp` of the host. -/
def getCardWidthOn (fp : HostArith) (cardsLength : Nat) (rectWidth : ℚ) : ℚ :=
  if cardsLength = 0 then 0
  else
    let gap := 24
    fp.add rectWidth gap

/-- Function `handleMouseUp`, on the arithmetic `fp` of the host. -/
def handleMouseUpOn (fp : HostArith) (rectWidth : ℚ) (s : CarouselState) : CarouselState :=
  if !s.isDragging then s
  else
    let cardWidth := getCardWidthOn fp s.cardsLength rectWidth
    let moved := fp.sub s.currentX s.startX
    let index :=
      if |moved| > fp.div cardWidth 3 then
        if moved > 0 ∧ s.index > 0 then s.index - 1
        else if moved < 0 ∧ s.index < s.totalCards - 1 then s.index + 1
        else s.index
      else s.index
    let translateX := fp.mul (-(index : ℚ)) cardWidth
    { s with isDragging := false, draggingClass := false, index := index,
             transition := TrackTransition.eased, transform := translateX,
             initialTranslate := translateX,
             timeouts := s.timeouts ++ [CarouselTimeout.startSlide 2000] }

/-- Function `handleTouchEnd`, on the arithmetic `fp` of the host; `clientX` is
`e.changedTouches[0].clientX`. -/
def handleTouchEndOn (fp : HostArith) (clientX rectWidth : ℚ) (s : CarouselState) :
    CarouselState :=
  if !s.isDragging then s
  else
    let cardWidth := getCardWidthOn fp s.cardsLength rectWidth
    let moved := fp.sub clientX s.touchStartX
    let index :=
      if |moved| > fp.div cardWidth 3 then
        if moved > 0 ∧ s.index > 0 then s.index - 1
        else if moved < 0 ∧ s.index < s.totalCards - 1 then s.index + 1
        else s.index
      else s.index
    let translateX := fp.mul (-(index : ℚ)) cardWidth
    { s with isDragging := false, index := index,
             transition := TrackTransition.eased, transform := translateX,
             timeouts := s.timeouts ++ [CarouselTimeout.startSlide 3000] }

/-- The snap rule of the drag contract, in the words of the specification: when
`|moved|` is beyond a third of the card width (the quotient `cardWidth / 3` as the
host computes it) the index moves one step in the drag direction, within
`0 .. logicalSlideCount - 1`; otherwise it stays. -/
def snapIndexOn (fp : HostArith) (index logicalSlideCount : Int) (cardWidth moved : ℚ) :
    Int :=
  if |moved| > fp.div cardWidth 3 then
    if moved < 0 then (if index < logicalSlideCount - 1 then index + 1 else index)
    else if moved > 0 then (if index > 0 then index - 1 else index)
    else index
  else index

/-- What happens to the carousel after `initReviewsAnimation`: a firing of the
autoplay interval, the firing of the `k`-th pending timeout, the pointer, touch and
hover events of its listeners, and the debounced resize callback. -/
inductive CarouselEvent where
  | tick (rectWidth : ℚ)
  | timeout (k : Nat)
  | mouseDown (clientX rectWidth : ℚ)
  | mouseMove (clientX : ℚ)
  | mouseUp (rectWidth : ℚ)
  | touchStart (clientX rectWidth : ℚ)
  | touchMove (clientX : ℚ)
  | touchEnd (clientX rectWidth : ℚ)
  | mouseEnter
  | mouseLeave
  | resize (rectWidth : ℚ)

/-- The firing of the `k`-th pending timeout: it leaves the list and its callback runs. -/
def fireTimeout (k : Nat) (s : CarouselState) : CarouselState :=
  match s.timeouts[k]? with
  | none => s
  | some CarouselTimeout.wrapReset => wrapReset { s with timeouts := s.timeouts.eraseIdx k }
  | some (CarouselTimeout.startSlide _) =>
      startSlide { s with timeouts := s.timeouts.eraseIdx k }

/-- The effect of one event on the carousel; the interval fires only while live. -/
def CarouselEvent.apply (s : CarouselState) : CarouselEvent → CarouselState
  | .tick rectWidth => if s.intervals = [] then s else nextSlide rectWidth s
  | .timeout k => fireTimeout k s
  | .mouseDown clientX rectWidth => handleMouseDown clientX rectWidth s
  | .mouseMove clientX => handleMouseMove clientX s
  | .mouseUp rectWidth => handleMouseUp rectWidth s
  | .touchStart clientX rectWidth => handleTouchStart clientX rectWidth s
  | .touchMove clientX => handleTouchMove clientX s
  | .touchEnd clientX rectWidth => handleTouchEnd clientX rectWidth s
  | .mouseEnter => stopSlide s
  | .mouseLeave => startSlide s
  | .resize rectWidth => handleCarouselResize rectWidth s

/-- The effect of a sequence of events on the carousel. -/
def runCarousel (events : List CarouselEvent) (s : CarouselState) : CarouselState :=
  events.foldl CarouselEvent.apply s

/-- The states a run of the carousel visits, one after each event. -/
def runStates : List CarouselEvent → CarouselState → List CarouselState
  | [], _ => []
  | e :: es, s => e.apply s :: runStates es (e.apply s)

/-- The events that call `startSlide`: the mouse-leave and the firing of a pending
`startSlide` timeout (the 100 ms of initialization or the cooldown of a drag). -/
def restartsAutoplay (s : CarouselState) : CarouselEvent → Bool
  | .mouseLeave => true
  | .timeout k =>
      match s.timeouts[k]? with
      | some (CarouselTimeout.startSlide _) => true
      | _ => false
  | _ => false

/-- No event of the run calls `startSlide`. -/
def noRestart : List CarouselEvent → CarouselState → Bool
  | [], _ => true
  | e :: es, s => !restartsAutoplay s e && noRestart es (e.apply s)

/-- The autoplay intervals that are live are exactly the one `slideInterval` names. -/
def OneInterval (s : CarouselState) : Prop :=
  s.intervals = s.slideInterval.toList

/-- Whether an event is the mouse-leave of the carousel. -/
def isMouseLeave : CarouselEvent → Bool
  | .mouseLeave => true
  | _ => false

/-! ## The page: gallery and carousel -/

/-- The gallery and, when `initReviewsAnimation` has set it up, the carousel. -/
structure Page where
  gallery : GalleryState
  carousel : Option CarouselState

/-- What happens on the page after `DOMContentLoaded`. -/
inductive PageEvent where
  | gallery (e : GalleryEvent)
  | carousel (e : CarouselEvent)

/-- The `DOMContentLoaded` handler, for the gallery and the carousel; both read the
same reduced-motion preference. -/
def pageLoad (container : Bool) (manifest : Option (List ImageName)) (width : Nat)
    (prefersReducedMotion : Bool) (rng : Rng) (track : Bool) (cardsLength : Nat)
    (carousel : Bool) : Page :=
  { gallery := loadGalleryAssets container manifest width prefersReducedMotion rng
      GalleryState.initial,
    carousel := initReviewsAnimation track cardsLength carousel prefersReducedMotion }

/-- The effect of one event on the page; a carousel that was not set up has no
listener and no timer. -/
def PageEvent.apply (p : Page) : PageEvent → Page
  | .gallery e => { p with gallery := e.apply p.gallery }
  | .carousel e => { p with carousel := p.carousel.map (fun c => e.apply c) }

/-- The effect of a sequence of events on the page. -/
def runPage (events : List PageEvent) (p : Page) : Page :=
  events.foldl PageEvent.apply p

/-- The number of calls of `setInterval` made by the gallery and the carousel. -/
def intervalTimersCreated (p : Page) : Nat :=
  p.gallery.timersCreated + (p.carousel.map (fun c => c.intervalsCreated)).getD 0

/-! ## Sample inputs -/

/-- Every call of `Math.random()` returns 0.99. -/
def highDraws : Rng := fun _ => ⟨99, 100, by decide⟩

/-- The sixth call of `Math.random()` returns 0.25, all others 0.99. -/
def sixthLowDraws : Rng := fun k => if k = 5 then ⟨1, 4, by decide⟩ else ⟨99, 100, by decide⟩

/-- A manifest with three images. -/
def threeImages : List ImageName := ["A", "B", "C"]

/-- A manifest with five images. -/
def fiveImages : List ImageName := ["A", "B", "C", "D", "E"]

/-- Page load on a desktop viewport when the manifest cannot be fetched, with draws
that bring both copies of `IMG_20260110_163141.jpg` into the initial selection. -/
def fallbackLoaded : GalleryState :=
  loadGalleryAssets true none 1200 false sixthLowDraws GalleryState.initial

/-- Page load of a three-image manifest on a desktop viewport. -/
def threeLoaded : GalleryState :=
  loadGalleryAssets true (some threeImages) 1200 false highDraws GalleryState.initial

/-- The viewport of `threeLoaded` shrinks to 700 and the rotation timer fires before
the debounced resize callback runs. -/
def threeShrunk : GalleryState :=
  handleGalleryResize true 700 highDraws (switchRandomImage 700 highDraws threeLoaded)

/-- A state with a pool and a VisibleSet but no tile. -/
def noTiles : GalleryState :=
  { GalleryState.initial with allImages := threeImages, visibleImages := [some "A"] }

/-- Page load of a five-image manifest on a desktop viewport. -/
def fiveLoaded : GalleryState :=
  loadGalleryAssets true (some fiveImages) 1200 false highDraws GalleryState.initial

/-- Every call of `Math.random()` returns 0. -/
def lowDraws : Rng := fun _ => ⟨0, 1, by decide⟩

/-- The viewport of `threeLoaded` shrinks to 700 and the rotation timer fires: the
full reset of `switchRandomImage` runs before the debounced resize callback. -/
def threeReset : GalleryState := switchRandomImage 700 highDraws threeLoaded

/-- A carousel of five cards (three slides and two clones) after the initial timeout
and three autoplay ticks, the cards being 276 px wide. -/
def fiveCardsAtEnd : CarouselState :=
  runCarousel [CarouselEvent.timeout 0, CarouselEvent.tick 276, CarouselEvent.tick 276,
    CarouselEvent.tick 276] (carouselInit 5)

/-- A carousel of seven cards, 276 px wide, after two autoplay ticks and a mouse
press at `clientX = 500`. -/
def sevenCardsPressed : CarouselState :=
  runCarousel [CarouselEvent.timeout 0, CarouselEvent.tick 276, CarouselEvent.tick 276,
    CarouselEvent.mouseDown 500 276] (carouselInit 7)

/-- The state `sevenCardsPressed` after a mouse move to `clientX = 350`. -/
def sevenCardsDragged : CarouselState :=
  handleMouseMove 350 sevenCardsPressed

/-- A carousel of seven cards whose autoplay has just been started. -/
def sevenCardsStarted : CarouselState :=
  runCarousel [CarouselEvent.timeout 0] (carouselInit 7)

/-- The pointer enters the carousel of `sevenCardsStarted`, presses at
`clientX = 500`, moves without displacement and releases; then the cooldown timeout
of the release fires. The pointer has not left the carousel. -/
def hoverAfterDrag : List CarouselEvent :=
  [CarouselEvent.mouseEnter, CarouselEvent.mouseDown 500 276, CarouselEvent.mouseMove 500,
    CarouselEvent.mouseUp 276, CarouselEvent.timeout 0]

/-- The carousel of five cards right after the advance to index 3, pressed at
`clientX = 500` and dragged to 450 while the wraparound reset is pending. -/
def fiveCardsDragged : CarouselState :=
  runCarousel [CarouselEvent.mouseDown 500 276, CarouselEvent.mouseMove 450] fiveCardsAtEnd

/-- The first call of `Math.random()` returns 0.25, all others 0.99. -/
def firstLowDraws : Rng := fun k => if k = 0 then ⟨1, 4, by decide⟩ else ⟨99, 100, by decide⟩

/-- A manifest of five entries that names the image A twice. -/
def repeatedImages : List ImageName := ["A", "A", "B", "C", "D"]

/-- Page load of `repeatedImages` on a desktop viewport; the shuffle brings D into
the initial selection, which then shows every image of the pool. -/
def repeatedLoaded : GalleryState :=
  loadGalleryAssets true (some repeatedImages) 1200 false firstLowDraws GalleryState.initial

/-- The rotation timer fires on `repeatedLoaded` while the viewport is 700 wide
(full reset to one slot), and again when it is back to 1200 wide. -/
def repeatedRotated : GalleryState :=
  switchRandomImage 1200 highDraws (switchRandomImage 700 highDraws repeatedLoaded)

/-- A carousel of two cards, 276 px wide, right after its first autoplay tick,
pressed at `clientX = 100` and dragged to 400. -/
def twoCardsDragged : CarouselState :=
  runCarousel [CarouselEvent.timeout 0, CarouselEvent.tick 276,
    CarouselEvent.mouseDown 100 276, CarouselEvent.mouseMove 400] (carouselInit 2)

/-! ## Lemmas on the helpers -/

theorem Draw.floorMul_lt (d : Draw) {n : Nat} (hn : 0 < n) : d.floorMul n < n := by
  unfold Draw.floorMul
  have hd : 0 < d.den := Nat.lt_of_le_of_lt (Nat.zero_le _) d.lt
  rw [Nat.div_lt_iff_lt_mul hd]
  exact Nat.mul_lt_mul_of_lt_of_le' d.lt (le_refl n) hn |>.trans_eq (Nat.mul_comm _ _)

theorem swapAt_length {α : Type} (a : List α) (i j : Nat) :
    (swapAt a i j).length = a.length := by
  unfold swapAt
  split <;> simp

/-- Overwriting the slot that holds `y` by `h` and putting `y` in front keeps the
elements. -/
theorem set_cons_perm {α : Type} (h y : α) :
    ∀ (t : List α) (j : Nat), t[j]? = some y → (y :: t.set j h).Perm (h :: t)
  | [], j, hj => by simp at hj
  | z :: t, 0, hj => by
      simp at hj
      subst hj
      simpa using List.Perm.swap h z t
  | z :: t, j + 1, hj => by
      simp at hj
      have ih := set_cons_perm h y t j hj
      simp only [List.set_cons_succ]
      exact (List.Perm.swap z y (t.set j h)).trans
        (((List.Perm.cons z ih)).trans (List.Perm.swap h z t))

theorem swapAt_perm {α : Type} : ∀ (a : List α) (i j : Nat), (swapAt a i j).Perm a
  | [], i, j => by simp [swapAt]
  | h :: t, 0, 0 => by simp [swapAt]
  | h :: t, 0, j + 1 => by
      unfold swapAt
      cases hj : t[j]? with
      | none => simp [hj]
      | some y => simpa [hj] using set_cons_perm h y t j hj
  | h :: t, i + 1, 0 => by
      unfold swapAt
      cases hi : t[i]? with
      | none => simp [hi]
      | some x => simpa [hi] using set_cons_perm h x t i hi
  | h :: t, i + 1, j + 1 => by
      have ih := swapAt_perm t i j
      unfold swapAt at ih ⊢
      cases hi : t[i]? with
      | none => simp [hi]
      | some x =>
        cases hj : t[j]? with
        | none => simp [hi, hj]
        | some y =>
          simp only [hi, hj] at ih
          simpa [hi, hj] using ih

theorem shuffleLoop_perm {α : Type} (rng : Rng) :
    ∀ (i k : Nat) (a : List α), (shuffleLoop rng k i a).Perm a
  | 0, _, _ => by simp [shuffleLoop]
  | i + 1, k, a => by
      simp only [shuffleLoop]
      exact (shuffleLoop_perm rng i (k + 1) _).trans (swapAt_perm a _ _)

theorem shuffleArray_perm {α : Type} (array : List α) (rng : Rng) :
    (shuffleArray array rng).Perm array :=
  shuffleLoop_perm rng _ _ _

theorem shuffleLoop_eq_foldl {α : Type} (rng : Rng) :
    ∀ (i k : Nat) (a : List α),
      shuffleLoop rng k i a = (shuffleSteps rng k i).foldl (fun b p => swapAt b p.1 p.2) a
  | 0, _, _ => by simp [shuffleLoop, shuffleSteps]
  | i + 1, k, a => by
      simp only [shuffleLoop, shuffleSteps, List.foldl_cons]
      exact shuffleLoop_eq_foldl rng i (k + 1) _

theorem shuffleSteps_fst (rng : Rng) :
    ∀ (i k : Nat), (shuffleSteps rng k i).map Prod.fst = (List.range' 1 i).reverse
  | 0, _ => by simp [shuffleSteps]
  | i + 1, k => by
      simp only [shuffleSteps, List.map_cons, shuffleSteps_fst rng i (k + 1)]
      rw [List.range'_concat]
      simp [Nat.add_comm]

theorem shuffleSteps_snd_le (rng : Rng) :
    ∀ (i k : Nat), ∀ p ∈ shuffleSteps rng k i, p.2 ≤ p.1 ∧ 1 ≤ p.1 ∧ p.1 ≤ i
  | 0, _ => by simp [shuffleSteps]
  | i + 1, k => by
      intro p hp
      simp only [shuffleSteps, List.mem_cons] at hp
      rcases hp with rfl | hp
      · have := (rng k).floorMul_lt (show 0 < i + 1 + 1 by omega)
        simp only
        omega
      · have := shuffleSteps_snd_le rng i (k + 1) p hp
        omega

theorem jsAssign_length_of_lt {α : Type} (a : List (Option α)) (i : Nat) (v : α)
    (h : i < a.length) : (jsAssign a i v).length = a.length := by
  simp [jsAssign, h]

theorem jsAssign_length {α : Type} (a : List (Option α)) (i : Nat) (v : α) :
    (jsAssign a i v).length = max a.length (i + 1) := by
  unfold jsAssign
  split <;> simp <;> omega

theorem jsRead_jsAssign {α : Type} (a : List (Option α)) (i k : Nat) (v : α) :
    jsRead (jsAssign a i v) k = if k = i then some v else jsRead a k := by
  unfold jsAssign jsRead
  by_cases h : i < a.length
  · simp only [h, if_true, List.getElem?_set]
    by_cases hk : k = i
    · subst hk; simp [h]
    · simp [hk, Ne.symm hk]
  · simp only [h, if_false]
    by_cases hk : k = i
    · subst hk
      rw [List.getElem?_append_right (by simp; omega)]
      simp
      have : a.length + (k - a.length) = k := by omega
      simp [this]
    · simp only [hk, if_false]
      rcases Nat.lt_or_ge k a.length with h1 | h1
      · rw [List.append_assoc, List.getElem?_append_left h1]
      · rw [List.getElem?_eq_none (l := a) h1]
        rcases Nat.lt_or_ge k i with h2 | h2
        · rw [List.getElem?_append_left (by simp; omega), List.getElem?_append_right h1]
          simp [List.getElem?_replicate]
        · rw [List.getElem?_eq_none (by simp; omega)]

theorem mem_jsAssign {α : Type} (a : List (Option α)) (i : Nat) (v y : α)
    (h : some y ∈ jsAssign a i v) : y = v ∨ some y ∈ a := by
  unfold jsAssign at h
  split at h
  · rcases List.mem_or_eq_of_mem_set h with h | h
    · exact Or.inr h
    · exact Or.inl (Option.some.inj h)
  · simp only [List.mem_append, List.mem_replicate, List.mem_singleton] at h
    rcases h with (h | h) | h
    · exact Or.inr h
    · exact absurd h.2 (by simp)
    · exact Or.inl (Option.some.inj h)

theorem identifiers_jsAssign_nodup (a : List (Option ImageName)) (i : Nat) (v : ImageName)
    (hn : (identifiers a).Nodup) (hv : some v ∉ a) :
    (identifiers (jsAssign a i v)).Nodup := by
  have hv2 : v ∉ identifiers a := by
    simpa [identifiers] using hv
  unfold jsAssign
  split
  · rename_i h
    rw [List.set_eq_take_append_cons_drop, if_pos h]
    have hsub : (List.take i a ++ List.drop (i + 1) a).Sublist a := by
      conv => rhs; rw [← List.take_append_drop i a]
      exact List.Sublist.append (List.Sublist.refl _) (List.drop_sublist_drop_left a (Nat.le_succ i))
    have hs2 := hsub.filterMap id
    simp only [identifiers, List.filterMap_append, List.filterMap_cons, id] at hs2 ⊢
    rw [List.nodup_middle, List.nodup_cons]
    exact ⟨fun hm => hv2 (hs2.subset hm), hn.sublist hs2⟩
  · simp only [identifiers, List.filterMap_append, List.filterMap_replicate_of_none, List.append_nil]
    simp [List.nodup_append, hv2]
    exact ⟨hn,  by simpa [identifiers] using hv2⟩

theorem mem_availableImages (s : GalleryState) (x : ImageName) :
    x ∈ availableImages s ↔ x ∈ s.allImages ∧ some x ∉ s.visibleImages := by
  simp [availableImages, List.mem_filter]

theorem identifiers_map_some (l : List ImageName) : identifiers (l.map some) = l := by
  simp [identifiers, List.filterMap_map]

/-- The index of the tile `switchRandomImage` replaces on its single-swap path. -/
theorem randomItemIndex_lt (width : Nat) (rng : Rng) (s : GalleryState)
    (h : s.galleryItems ≠ []) :
    (rng 0).floorMul (min (getVisibleImageCount width) s.galleryItems.length)
      < min (getVisibleImageCount width) s.galleryItems.length := by
  apply Draw.floorMul_lt
  have h1 : 0 < s.galleryItems.length := List.length_pos.mpr h
  have h2 : 0 < getVisibleImageCount width := by
    unfold getVisibleImageCount
    split_ifs <;> decide
  exact Nat.lt_min.mpr ⟨h2, h1⟩

/-- The single-swap path of `switchRandomImage`: it is taken as soon as the pool is
larger than the visible count, some image is available and there is a tile; it
writes an available image into the chosen slot and fades the tile of that slot. -/
theorem switchRandomImage_swap (width : Nat) (rng : Rng) (s : GalleryState)
    (h1 : getVisibleImageCount width < s.allImages.length)
    (h2 : availableImages s ≠ []) (h3 : s.galleryItems ≠ []) :
    ∃ x item, x ∈ availableImages s
      ∧ s.galleryItems[(rng 0).floorMul
          (min (getVisibleImageCount width) s.galleryItems.length)]? = some item
      ∧ switchRandomImage width rng s =
        { s with
          visibleImages := jsAssign s.visibleImages
            ((rng 0).floorMul (min (getVisibleImageCount width) s.galleryItems.length)) x,
          galleryItems := s.galleryItems.set
            ((rng 0).floorMul (min (getVisibleImageCount width) s.galleryItems.length))
            (replaceImageWithFade item x) } := by
  have hi := randomItemIndex_lt width rng s h3
  have hi2 : (rng 0).floorMul (min (getVisibleImageCount width) s.galleryItems.length)
      < s.galleryItems.length := lt_of_lt_of_le hi (Nat.min_le_right _ _)
  have ha : 0 < (availableImages s).length := List.length_pos.mpr h2
  have hk := (rng 1).floorMul_lt ha
  refine ⟨(availableImages s)[(rng 1).floorMul (availableImages s).length],
    s.galleryItems[(rng 0).floorMul
      (min (getVisibleImageCount width) s.galleryItems.length)], List.getElem_mem _,
    List.getElem?_eq_getElem hi2, ?_⟩
  unfold switchRandomImage
  have h3l : s.galleryItems.length ≠ 0 := by omega
  have h2l : (availableImages s).length ≠ 0 := by omega
  simp only [Nat.not_le.mpr h1, if_false, h2l, h3l, List.getElem?_eq_getElem hi2,
    List.getElem?_eq_getElem hk]

/-- The three outcomes of `switchRandomImage`: nothing, the full reset, the single swap. -/
theorem switchRandomImage_cases (width : Nat) (rng : Rng) (s : GalleryState) :
    switchRandomImage width rng s = s
      ∨ (getVisibleImageCount width < s.allImages.length ∧ availableImages s = []
          ∧ switchRandomImage width rng s =
            { s with
              visibleImages :=
                ((shuffleArray s.allImages rng).take (getVisibleImageCount width)).map some,
              galleryItems :=
                updateItems ((shuffleArray s.allImages rng).take (getVisibleImageCount width))
                  0 s.galleryItems })
      ∨ (availableImages s ≠ [] ∧ ∃ x item i, x ∈ availableImages s ∧ i < s.galleryItems.length
          ∧ switchRandomImage width rng s =
            { s with visibleImages := jsAssign s.visibleImages i x,
                     galleryItems := s.galleryItems.set i (replaceImageWithFade item x) }) := by
  by_cases h1 : s.allImages.length ≤ getVisibleImageCount width
  · left
    simp [switchRandomImage, h1]
  · by_cases h2 : availableImages s = []
    · right; left
      refine ⟨Nat.not_le.mp h1, h2, ?_⟩
      simp [switchRandomImage, h1, h2]
    · by_cases h3 : s.galleryItems = []
      · left
        have : (availableImages s).length ≠ 0 := by
          simpa [List.length_eq_zero] using h2
        simp [switchRandomImage, h1, this, h3]
      · right; right
        obtain ⟨x, item, hx, hi, he⟩ :=
          switchRandomImage_swap width rng s (Nat.not_le.mp h1) h2 h3
        refine ⟨h2, x, item, _, hx, ?_, he⟩
        exact lt_of_lt_of_le (randomItemIndex_lt width rng s h3) (Nat.min_le_right _ _)

theorem switchRandomImage_allImages (width : Nat) (rng : Rng) (s : GalleryState) :
    (switchRandomImage width rng s).allImages = s.allImages := by
  rcases switchRandomImage_cases width rng s with h | ⟨_, _, h⟩ | ⟨_, x, item, i, _, _, h⟩ <;>
    rw [h]

theorem renderItems_map_some (l : List ImageName) (items : List Tile) :
    renderItems (l.map some) items = items ++ l.map createGalleryItem := by
  have : List.filterMap id (l.map some) = l := identifiers_map_some l
  simp only [renderItems, this]

/-- The two outcomes of the resize callback: nothing, or the rebuild. -/
theorem handleGalleryResize_cases (container : Bool) (width : Nat) (rng : Rng)
    (s : GalleryState) :
    handleGalleryResize container width rng s = s
      ∨ (getVisibleImageCount width ≠ s.visibleImages.length ∧ s.allImages ≠ []
          ∧ container = true
          ∧ handleGalleryResize container width rng s =
            { s with
              visibleImages :=
                ((shuffleArray s.allImages rng).take (getVisibleImageCount width)).map some,
              galleryItems := renderItems
                (((shuffleArray s.allImages rng).take (getVisibleImageCount width)).map some)
                [] }) := by
  by_cases h : getVisibleImageCount width ≠ s.visibleImages.length ∧ s.allImages.length > 0
  · cases container with
    | false => left; simp [handleGalleryResize]
    | true =>
      right
      refine ⟨h.1, List.length_pos.mp h.2, rfl, ?_⟩
      unfold handleGalleryResize
      simp only [if_pos h, if_true]
  · left
    simp only [handleGalleryResize, h, if_false]

theorem handleGalleryResize_allImages (container : Bool) (width : Nat) (rng : Rng)
    (s : GalleryState) :
    (handleGalleryResize container width rng s).allImages = s.allImages := by
  rcases handleGalleryResize_cases container width rng s with h | ⟨_, _, _, h⟩ <;> rw [h]

/-- The two outcomes of `loadGalleryAssets` on page load: no gallery (no container
or no image), or the pool `images` with a shuffled initial selection. -/
theorem loadGalleryAssets_cases (container : Bool) (manifest : Option (List ImageName))
    (width : Nat) (prefersReducedMotion : Bool) (rng : Rng) :
    ((container = false ∨ manifest.getD fallbackImages = [])
        ∧ (loadGalleryAssets container manifest width prefersReducedMotion rng
          GalleryState.initial).allImages = []
        ∧ (loadGalleryAssets container manifest width prefersReducedMotion rng
          GalleryState.initial).visibleImages = []
        ∧ (loadGalleryAssets container manifest width prefersReducedMotion rng
          GalleryState.initial).galleryItems = [])
      ∨ (container = true ∧ manifest.getD fallbackImages ≠ []
        ∧ (loadGalleryAssets container manifest width prefersReducedMotion rng
            GalleryState.initial).allImages = manifest.getD fallbackImages
        ∧ (loadGalleryAssets container manifest width prefersReducedMotion rng
            GalleryState.initial).visibleImages =
            ((shuffleArray (manifest.getD fallbackImages) rng).take
              (getVisibleImageCount width)).map some
        ∧ (loadGalleryAssets container manifest width prefersReducedMotion rng
            GalleryState.initial).galleryItems =
            ((shuffleArray (manifest.getD fallbackImages) rng).take
              (getVisibleImageCount width)).map createGalleryItem) := by
  have hm : (match manifest with
      | some imgs => imgs
      | none => fallbackImages) = manifest.getD fallbackImages := by
    cases manifest <;> rfl
  cases container with
  | false => left; simp [loadGalleryAssets, GalleryState.initial]
  | true =>
    by_cases h : manifest.getD fallbackImages = []
    · left
      simp [loadGalleryAssets, hm, h, GalleryState.initial]
    · right
      have hl : (manifest.getD fallbackImages).length ≠ 0 := by
        simpa [List.length_eq_zero] using h
      refine ⟨rfl, h, ?_, ?_, ?_⟩ <;>
        cases prefersReducedMotion <;>
        simp only [loadGalleryAssets, hm, hl, startImageSwitching, GalleryState.initial,
          renderItems_map_some, Bool.not_true, Bool.false_eq_true, if_false, if_true,
          List.nil_append]

/-- In the end-to-end scenario (five distinct images, four of them visible) exactly
one image is available. -/
theorem availableImages_five (s : GalleryState) (v : List ImageName)
    (hp : s.allImages = fiveImages) (hv : s.visibleImages = v.map some)
    (hn : v.Nodup) (hl : v.length = 4) (hm : ∀ x ∈ v, x ∈ fiveImages) :
    ∃ x, availableImages s = [x] := by
  have hnp : fiveImages.Nodup := by decide
  have hperm : (fiveImages.filter (fun x => decide (x ∈ v))).Perm v := by
    rw [List.perm_ext_iff_of_nodup (hnp.filter _) hn]
    intro a
    simp only [List.mem_filter, decide_eq_true_eq]
    exact ⟨fun h => h.2, fun h => ⟨hm a h, h⟩⟩
  have hsum := List.length_eq_length_filter_add (l := fiveImages) (fun x => decide (x ∈ v))
  have ha : availableImages s = fiveImages.filter (fun x => !decide (x ∈ v)) := by
    unfold availableImages
    rw [hp, hv]
    apply List.filter_congr
    intro x _
    simp
  have h5 : fiveImages.length = 5 := by decide
  have h1 : (availableImages s).length = 1 := by
    rw [ha]
    have := hperm.length_eq
    omega
  exact List.length_eq_one.mp h1

/-! ## The shuffle as a bijection -/

theorem mem_drawSeqs_zero (js : List Nat) : js ∈ drawSeqs 0 ↔ js = [] := by
  simp [drawSeqs]

theorem mem_drawSeqs_succ (i : Nat) (js : List Nat) :
    js ∈ drawSeqs (i + 1) ↔ ∃ j js', js = j :: js' ∧ j ≤ i + 1 ∧ js' ∈ drawSeqs i := by
  simp only [drawSeqs, List.mem_flatMap, List.mem_range, List.mem_map]
  constructor
  · rintro ⟨j, hj, js', hjs, rfl⟩
    exact ⟨j, js', rfl, by omega, hjs⟩
  · rintro ⟨j, js', rfl, hj, hjs⟩
    exact ⟨j, by omega, js', hjs, rfl⟩

theorem drawSeqs_length : ∀ i, (drawSeqs i).length = (i + 1).factorial
  | 0 => by simp [drawSeqs]
  | i + 1 => by
      rw [drawSeqs, List.length_flatMap]
      have : (List.length ∘ fun j => (drawSeqs i).map (fun js => j :: js))
          = fun _ => (i + 1).factorial := by
        funext j
        simp [drawSeqs_length i]
      rw [this]
      simp [Nat.factorial_succ (i + 1)]

theorem drawSeqs_nodup : ∀ i, (drawSeqs i).Nodup
  | 0 => by simp [drawSeqs]
  | i + 1 => by
      rw [drawSeqs, List.nodup_flatMap]
      constructor
      · intro j _
        exact (drawSeqs_nodup i).map (fun a b h => (List.cons.inj h).2)
      · refine (List.nodup_range _).imp ?_
        intro a b hab
        simp only [Function.onFun]
        intro js h1 h2
        simp only [List.mem_map] at h1 h2
        obtain ⟨x, _, rfl⟩ := h1
        obtain ⟨y, _, hy⟩ := h2
        exact hab (List.cons.inj hy).1.symm

theorem shuffleLoop_eq_shuffleWith {α : Type} (rng : Rng) :
    ∀ (i k : Nat) (a : List α),
      shuffleLoop rng k i a = shuffleWith ((shuffleSteps rng k i).map Prod.snd) i a
  | 0, _, _ => by simp [shuffleLoop, shuffleSteps, shuffleWith]
  | i + 1, k, a => by
      simp only [shuffleLoop, shuffleSteps, List.map_cons, shuffleWith]
      exact shuffleLoop_eq_shuffleWith rng i (k + 1) _

theorem shuffleSteps_mem_drawSeqs (rng : Rng) :
    ∀ (i k : Nat), (shuffleSteps rng k i).map Prod.snd ∈ drawSeqs i
  | 0, _ => by simp [shuffleSteps, drawSeqs]
  | i + 1, k => by
      rw [mem_drawSeqs_succ]
      refine ⟨_, _, rfl, ?_, shuffleSteps_mem_drawSeqs rng i (k + 1)⟩
      have := (rng k).floorMul_lt (show 0 < i + 1 + 1 by omega)
      omega

/-- Draws that give the indices `js` make the loop record exactly `js`. -/
theorem shuffleSteps_of_draws (rng : Rng) :
    ∀ (i k : Nat) (js : List Nat), js ∈ drawSeqs i →
      (∀ t j, js[t]? = some j → (rng (k + t)).floorMul (i - t + 1) = j) →
      (shuffleSteps rng k i).map Prod.snd = js
  | 0, _, js, hjs, _ => by
      rw [mem_drawSeqs_zero] at hjs
      simp [shuffleSteps, hjs]
  | i + 1, k, js, hjs, H => by
      rw [mem_drawSeqs_succ] at hjs
      obtain ⟨j, js', rfl, _, hjs'⟩ := hjs
      simp only [shuffleSteps, List.map_cons]
      have h0 := H 0 j (by simp)
      simp only [Nat.add_zero, Nat.sub_zero] at h0
      rw [h0, shuffleSteps_of_draws rng i (k + 1) js' hjs']
      intro t x hx
      have := H (t + 1) x (by simpa using hx)
      have e1 : k + (t + 1) = k + 1 + t := by omega
      have e2 : i + 1 - (t + 1) = i - t := by omega
      rw [e1, e2] at this
      exact this

theorem drawSeqs_bound : ∀ (i : Nat) (js : List Nat), js ∈ drawSeqs i →
    ∀ t j, js[t]? = some j → j < i - t + 1
  | 0, js, hjs, t, j, h => by
      rw [mem_drawSeqs_zero] at hjs
      simp [hjs] at h
  | i + 1, js, hjs, t, j, h => by
      rw [mem_drawSeqs_succ] at hjs
      obtain ⟨j0, js', rfl, hj0, hjs'⟩ := hjs
      cases t with
      | zero =>
        simp at h
        omega
      | succ t =>
        have := drawSeqs_bound i js' hjs' t j (by simpa using h)
        omega

theorem drawsOf_floorMul (m : Nat) (js : List Nat) (hjs : js ∈ drawSeqs m) (t j : Nat)
    (h : js[t]? = some j) : (drawsOf m js (0 + t)).floorMul (m - t + 1) = j := by
  have hb := drawSeqs_bound m js hjs t j h
  simp only [drawsOf, Nat.zero_add, h, hb, dif_pos, Draw.floorMul]
  exact Nat.mul_div_cancel _ (by omega)

theorem shuffleArray_drawsOf {α : Type} (l : List α) (js : List Nat)
    (hjs : js ∈ drawSeqs (l.length - 1)) :
    shuffleArray l (drawsOf (l.length - 1) js) = shuffleWith js (l.length - 1) l := by
  unfold shuffleArray
  rw [shuffleLoop_eq_shuffleWith,
    shuffleSteps_of_draws _ _ 0 js hjs (drawsOf_floorMul _ js hjs)]


theorem shuffleWith_perm {α : Type} :
    ∀ (js : List Nat) (i : Nat) (a : List α), (shuffleWith js i a).Perm a
  | [], _, _ => by simp [shuffleWith]
  | _ :: _, 0, _ => by simp [shuffleWith]
  | j :: js, i + 1, a => by
      simp only [shuffleWith]
      exact (shuffleWith_perm js i _).trans (swapAt_perm a _ _)

theorem swapAt_append {α : Type} (b c : List α) (i j : Nat) (hi : i < b.length)
    (hj : j < b.length) : swapAt (b ++ c) i j = swapAt b i j ++ c := by
  unfold swapAt
  rw [List.getElem?_append_left hi, List.getElem?_append_left hj,
    List.getElem?_eq_getElem hi, List.getElem?_eq_getElem hj]
  simp only
  rw [List.set_append_left _ _ hi, List.set_append_left _ _ (by simpa using hj)]

/-- The loop started at `i` leaves the positions above `i` alone. -/
theorem shuffleWith_append {α : Type} :
    ∀ (i : Nat) (js : List Nat) (b c : List α), js ∈ drawSeqs i → i < b.length →
      shuffleWith js i (b ++ c) = shuffleWith js i b ++ c
  | 0, js, b, c, hjs, _ => by
      rw [mem_drawSeqs_zero] at hjs
      simp [hjs, shuffleWith]
  | i + 1, js, b, c, hjs, hb => by
      rw [mem_drawSeqs_succ] at hjs
      obtain ⟨j, js', rfl, hj, hjs'⟩ := hjs
      simp only [shuffleWith]
      rw [swapAt_append b c (i + 1) j hb (by omega)]
      exact shuffleWith_append i js' _ c hjs' (by rw [swapAt_length]; omega)

/-- After the swap of the last position with position `j`, the last element is the
former element `j`. -/
theorem swapAt_last {α : Type} (b : List α) (i j : Nat) (hb : b.length = i + 1 + 1)
    (hj : j < b.length) :
    swapAt b (i + 1) j = (swapAt b (i + 1) j).dropLast ++ [b[j]] := by
  have hne : swapAt b (i + 1) j ≠ [] := by
    intro h
    have := swapAt_length b (i + 1) j
    rw [h, hb] at this
    simp at this
  have hlast : (swapAt b (i + 1) j).getLast hne = b[j] := by
    rw [List.getLast_eq_getElem]
    have hi : i + 1 < b.length := by omega
    simp only [swapAt_length, hb, Nat.add_sub_cancel]
    apply Option.some.inj
    rw [← List.getElem?_eq_getElem]
    unfold swapAt
    rw [List.getElem?_eq_getElem hi, List.getElem?_eq_getElem hj]
    simp only [List.getElem?_set, List.length_set]
    by_cases h : j = i + 1
    · subst h; simp [hi]
    · simp [h, hi]
  rw [← hlast, List.dropLast_append_getLast]

/-- One round of the loop: the element drawn goes to the last position and the loop
goes on with the positions before it. -/
theorem shuffleWith_cons {α : Type} (b : List α) (i j : Nat) (js : List Nat)
    (hb : b.length = i + 1 + 1) (hj : j < b.length) (hjs : js ∈ drawSeqs i) :
    shuffleWith (j :: js) (i + 1) b
      = shuffleWith js i (swapAt b (i + 1) j).dropLast ++ [b[j]] := by
  simp only [shuffleWith]
  conv => lhs; rw [swapAt_last b i j hb hj]
  exact shuffleWith_append i js _ _ hjs (by simp [swapAt_length, hb])

theorem swapAt_dropLast_perm {α : Type} (b : List α) (i j : Nat)
    (hb : b.length = i + 1 + 1) (hj : j < b.length) :
    ((swapAt b (i + 1) j).dropLast ++ [b[j]]).Perm b := by
  rw [← swapAt_last b i j hb hj]
  exact swapAt_perm b (i + 1) j

theorem drawSeqs_nonempty (i : Nat) : ∃ js, js ∈ drawSeqs i :=
  ⟨_, shuffleSteps_mem_drawSeqs (fun _ => ⟨0, 1, Nat.one_pos⟩) i 0⟩

theorem shuffleWith_bijOn {α : Type} :
    ∀ (i : Nat) (b : List α), b.length = i + 1 → b.Nodup →
      Set.BijOn (fun js => shuffleWith js i b) {js | js ∈ drawSeqs i} {l | l.Perm b}
  | 0, b, hb, _ => by
      obtain ⟨x, rfl⟩ := List.length_eq_one.mp hb
      refine ⟨?_, ?_, ?_⟩
      · intro js _
        exact shuffleWith_perm js 0 _
      · intro js1 h1 js2 h2 _
        simp only [Set.mem_setOf_eq, mem_drawSeqs_zero] at h1 h2
        rw [h1, h2]
      · intro l hl
        simp only [Set.mem_setOf_eq, List.perm_singleton] at hl
        exact ⟨[], by simp [drawSeqs], by simp [shuffleWith, hl]⟩
  | i + 1, b, hb, hn => by
      have hrest : ∀ (j : Nat) (hj : j < b.length),
          (swapAt b (i + 1) j).dropLast.length = i + 1
            ∧ (swapAt b (i + 1) j).dropLast.Nodup := by
        intro j hj
        refine ⟨by simp [swapAt_length, hb], ?_⟩
        exact (List.nodup_append.mp
          ((swapAt_dropLast_perm b i j hb hj).nodup_iff.mpr hn)).1
      refine ⟨?_, ?_, ?_⟩
      · intro js _
        exact shuffleWith_perm js (i + 1) _
      · intro js1 h1 js2 h2 heq
        simp only [Set.mem_setOf_eq, mem_drawSeqs_succ] at h1 h2
        obtain ⟨j1, js1', rfl, hj1, hjs1⟩ := h1
        obtain ⟨j2, js2', rfl, hj2, hjs2⟩ := h2
        have hj1' : j1 < b.length := by omega
        have hj2' : j2 < b.length := by omega
        simp only at heq
        rw [shuffleWith_cons b i j1 js1' hb hj1' hjs1,
          shuffleWith_cons b i j2 js2' hb hj2' hjs2] at heq
        obtain ⟨hpre, hlast⟩ := List.append_inj' heq rfl
        have hj : j1 = j2 := (hn.getElem_inj_iff).mp (List.cons.inj hlast).1
        subst hj
        obtain ⟨hl1, hn1⟩ := hrest j1 hj1'
        rw [(shuffleWith_bijOn i _ hl1 hn1).2.1 hjs1 hjs2 hpre]
      · intro l hl
        simp only [Set.mem_setOf_eq] at hl
        have hlen : l.length = i + 1 + 1 := hl.length_eq.trans hb
        have hne : l ≠ [] := by
          intro h
          rw [h] at hlen
          simp at hlen
        have hx : l.getLast hne ∈ b := hl.subset (List.getLast_mem hne)
        obtain ⟨j, hj, hjx⟩ := List.mem_iff_getElem.mp hx
        obtain ⟨hl', hn'⟩ := hrest j hj
        have hsplit := List.dropLast_append_getLast hne
        have hperm : l.dropLast.Perm (swapAt b (i + 1) j).dropLast := by
          rw [← List.perm_append_right_iff [b[j]]]
          refine List.Perm.trans ?_ (hl.trans (swapAt_dropLast_perm b i j hb hj).symm)
          rw [hjx, hsplit]
        obtain ⟨js', hjs', hjs'e⟩ := (shuffleWith_bijOn i _ hl' hn').2.2 hperm
        simp only [Set.mem_setOf_eq] at hjs'
        simp only at hjs'e
        refine ⟨j :: js', ?_, ?_⟩
        · simp only [Set.mem_setOf_eq, mem_drawSeqs_succ]
          exact ⟨j, js', rfl, by omega, hjs'⟩
        · simp only
          rw [shuffleWith_cons b i j js' hb hj hjs', hjs'e, hjx, hsplit]
theorem mem_drawSeqs_iff : ∀ (i : Nat) (js : List Nat),
    js ∈ drawSeqs i ↔ js.length = i ∧ ∀ t j, js[t]? = some j → j ≤ i - t
  | 0, js => by
      rw [mem_drawSeqs_zero]
      constructor
      · rintro rfl
        simp
      · intro h
        exact List.length_eq_zero.mp h.1
  | i + 1, js => by
      rw [mem_drawSeqs_succ]
      constructor
      · rintro ⟨j, js', rfl, hj, hjs⟩
        obtain ⟨hlen, hb⟩ := (mem_drawSeqs_iff i js').mp hjs
        refine ⟨by simp [hlen], ?_⟩
        intro t x hx
        cases t with
        | zero =>
          simp at hx
          omega
        | succ t =>
          have := hb t x (by simpa using hx)
          omega
      · rintro ⟨hlen, hb⟩
        cases js with
        | nil => simp at hlen
        | cons j js' =>
          refine ⟨j, js', rfl, ?_, (mem_drawSeqs_iff i js').mpr ⟨by simpa using hlen, ?_⟩⟩
          · have := hb 0 j (by simp)
            omega
          · intro t x hx
            have := hb (t + 1) x (by simpa using hx)
            omega

/-- A list without duplicates whose members all equal `a` and that contains `a` is `[a]`. -/
theorem length_filter_eq_one {β : Type} (L : List β) (p : β → Bool) (a : β)
    (hL : L.Nodup) (ha : a ∈ L) (hpa : p a = true) (hu : ∀ b ∈ L, p b = true → b = a) :
    (L.filter p).length = 1 := by
  have hmem : a ∈ L.filter p := List.mem_filter.mpr ⟨ha, hpa⟩
  have hall : ∀ b ∈ L.filter p, b = a := fun b hb =>
    hu b (List.mem_filter.mp hb).1 (List.mem_filter.mp hb).2
  have hrep := List.eq_replicate_of_mem hall
  have hnd : (L.filter p).Nodup := hL.filter p
  rw [hrep, List.nodup_replicate] at hnd
  have hpos : 0 < (L.filter p).length := List.length_pos_of_mem hmem
  omega

theorem shuffleArray_bijOn {α : Type} (l : List α) (hl : l.Nodup) :
    Set.BijOn (fun js => shuffleArray l (drawsOf (l.length - 1) js))
      {js | js ∈ drawSeqs (l.length - 1)} {r | r.Perm l} := by
  have hw : Set.BijOn (fun js => shuffleWith js (l.length - 1) l)
      {js | js ∈ drawSeqs (l.length - 1)} {r | r.Perm l} := by
    cases l with
    | nil =>
      refine ⟨?_, ?_, ?_⟩
      · intro js _
        exact shuffleWith_perm js _ _
      · intro js1 h1 js2 h2 _
        have h1z : js1 ∈ drawSeqs 0 := h1
        have h2z : js2 ∈ drawSeqs 0 := h2
        rw [mem_drawSeqs_zero] at h1z h2z
        rw [h1z, h2z]
      · intro r hr
        simp only [Set.mem_setOf_eq, List.perm_nil] at hr
        exact ⟨[], by simp [drawSeqs], by simp [shuffleWith, hr]⟩
    | cons x xs =>
      exact shuffleWith_bijOn xs.length (x :: xs) (by simp) hl
  refine hw.congr ?_
  intro js hjs
  exact (shuffleArray_drawsOf l js hjs).symm

/-! ## Invariants of the gallery state -/

theorem take_shuffle_nodup (pool : List ImageName) (rng : Rng) (n : Nat)
    (h : pool.Nodup) : ((shuffleArray pool rng).take n).Nodup :=
  ((shuffleArray_perm pool rng).nodup_iff.mpr h).sublist (List.take_sublist _ _)

theorem mem_take_shuffle (pool : List ImageName) (rng : Rng) (n : Nat) (x : ImageName)
    (h : x ∈ (shuffleArray pool rng).take n) : x ∈ pool :=
  (shuffleArray_perm pool rng).subset (List.mem_of_mem_take h)

/-- Uniqueness of the VisibleSet is kept by `switchRandomImage` when the pool has no
duplicate. -/
theorem switchRandomImage_unique (width : Nat) (rng : Rng) (s : GalleryState)
    (hp : s.allImages.Nodup) (hv : VisibleUnique s) :
    VisibleUnique (switchRandomImage width rng s) := by
  rcases switchRandomImage_cases width rng s with h | ⟨_, _, h⟩ | ⟨_, x, item, i, hx, _, h⟩
  · rw [h]; exact hv
  · rw [h]
    simp only [VisibleUnique, identifiers_map_some]
    exact take_shuffle_nodup _ _ _ hp
  · rw [h]
    exact identifiers_jsAssign_nodup _ _ _ hv ((mem_availableImages s x).mp hx).2

theorem handleGalleryResize_unique (container : Bool) (width : Nat) (rng : Rng)
    (s : GalleryState) (hp : s.allImages.Nodup) (hv : VisibleUnique s) :
    VisibleUnique (handleGalleryResize container width rng s) := by
  rcases handleGalleryResize_cases container width rng s with h | ⟨_, _, _, h⟩
  · rw [h]; exact hv
  · rw [h]
    simp only [VisibleUnique, identifiers_map_some]
    exact take_shuffle_nodup _ _ _ hp

theorem loadGalleryAssets_unique (container : Bool) (manifest : Option (List ImageName))
    (width : Nat) (prefersReducedMotion : Bool) (rng : Rng)
    (hp : (loadGalleryAssets container manifest width prefersReducedMotion rng
      GalleryState.initial).allImages.Nodup) :
    VisibleUnique (loadGalleryAssets container manifest width prefersReducedMotion rng
      GalleryState.initial) := by
  rcases loadGalleryAssets_cases container manifest width prefersReducedMotion rng with
    ⟨_, _, h, _⟩ | ⟨_, _, ha, h, _⟩
  · simp [VisibleUnique, h, identifiers]
  · rw [ha] at hp
    simp only [VisibleUnique, h, identifiers_map_some]
    exact take_shuffle_nodup _ _ _ hp

theorem Reachable.visibleUnique {s : GalleryState} (h : Reachable s) :
    s.allImages.Nodup → VisibleUnique s := by
  induction h with
  | init container manifest width prm rng =>
    exact loadGalleryAssets_unique container manifest width prm rng
  | rotate width rng _ ih =>
    intro hp
    rw [switchRandomImage_allImages] at hp
    exact switchRandomImage_unique width rng _ hp (ih hp)
  | resize container width rng _ ih =>
    intro hp
    rw [handleGalleryResize_allImages] at hp
    exact handleGalleryResize_unique container width rng _ hp (ih hp)

theorem RotationReachable.reachable {s : GalleryState} (h : RotationReachable s) :
    Reachable s := by
  induction h with
  | init container manifest width prm rng => exact Reachable.init container manifest width prm rng
  | rotate width rng _ ih => exact Reachable.rotate width rng ih

/-- Every identifier of the VisibleSet is a pool member, in every reachable state. -/
theorem Reachable.visible_subset_pool {s : GalleryState} (h : Reachable s) :
    ∀ x, some x ∈ s.visibleImages → x ∈ s.allImages := by
  induction h with
  | init container manifest width prm rng =>
    intro x hx
    rcases loadGalleryAssets_cases container manifest width prm rng with
      ⟨_, _, h, _⟩ | ⟨_, _, ha, h, _⟩
    · simp [h] at hx
    · rw [h] at hx
      rw [ha]
      simp only [List.mem_map, Option.some.injEq, exists_eq_right] at hx
      exact mem_take_shuffle _ _ _ _ hx
  | @rotate s width rng _ ih =>
    intro x hx
    rw [switchRandomImage_allImages]
    rcases switchRandomImage_cases width rng s with h | ⟨_, _, h⟩ | ⟨_, y, item, i, hy, _, h⟩
    · rw [h] at hx; exact ih x hx
    · rw [h] at hx
      simp only [List.mem_map, Option.some.injEq, exists_eq_right] at hx
      exact mem_take_shuffle _ _ _ _ hx
    · rw [h] at hx
      rcases mem_jsAssign _ _ _ _ hx with rfl | hx
      · exact ((mem_availableImages s x).mp hy).1
      · exact ih x hx
  | @resize s container width rng _ ih =>
    intro x hx
    rw [handleGalleryResize_allImages]
    rcases handleGalleryResize_cases container width rng s with h | ⟨_, _, _, h⟩
    · rw [h] at hx; exact ih x hx
    · rw [h] at hx
      simp only [List.mem_map, Option.some.injEq, exists_eq_right] at hx
      exact mem_take_shuffle _ _ _ _ hx

theorem fallbackLoaded_rotationReachable : RotationReachable fallbackLoaded :=
  RotationReachable.init true none 1200 false sixthLowDraws

theorem threeLoaded_reachable : Reachable threeLoaded :=
  Reachable.init true (some threeImages) 1200 false highDraws

theorem threeShrunk_reachable : Reachable threeShrunk :=
  Reachable.resize true 700 highDraws (Reachable.rotate 700 highDraws threeLoaded_reachable)

theorem fiveLoaded_rotationReachable : RotationReachable fiveLoaded :=
  RotationReachable.init true (some fiveImages) 1200 false highDraws

/-! ## The rotation timer -/

theorem switchRandomImage_timers (width : Nat) (rng : Rng) (s : GalleryState) :
    (switchRandomImage width rng s).switchInterval = s.switchInterval
      ∧ (switchRandomImage width rng s).intervals = s.intervals
      ∧ (switchRandomImage width rng s).timersCreated = s.timersCreated := by
  rcases switchRandomImage_cases width rng s with h | ⟨_, _, h⟩ | ⟨_, x, item, i, _, _, h⟩ <;>
    rw [h] <;> exact ⟨rfl, rfl, rfl⟩

theorem handleGalleryResize_timers (container : Bool) (width : Nat) (rng : Rng)
    (s : GalleryState) :
    (handleGalleryResize container width rng s).switchInterval = s.switchInterval
      ∧ (handleGalleryResize container width rng s).intervals = s.intervals
      ∧ (handleGalleryResize container width rng s).timersCreated = s.timersCreated := by
  rcases handleGalleryResize_cases container width rng s with h | ⟨_, _, _, h⟩ <;>
    rw [h] <;> exact ⟨rfl, rfl, rfl⟩

theorem fireSwitchInterval_timers (width : Nat) (rng : Rng) (s : GalleryState) :
    (fireSwitchInterval width rng s).switchInterval = s.switchInterval
      ∧ (fireSwitchInterval width rng s).intervals = s.intervals
      ∧ (fireSwitchInterval width rng s).timersCreated = s.timersCreated := by
  unfold fireSwitchInterval
  split
  · exact switchRandomImage_timers width rng s
  · exact ⟨rfl, rfl, rfl⟩

theorem timerDelay_fireSwitchInterval (width : Nat) (rng : Rng) (s : GalleryState) :
    timerDelay (fireSwitchInterval width rng s) = timerDelay s := by
  obtain ⟨h1, h2, _⟩ := fireSwitchInterval_timers width rng s
  simp only [timerDelay, h1, h2]

/-- All the firings of a run are preceded by the delay the timer had at the start. -/
theorem firingDelays_const : ∀ (calls : List (Nat × Rng)) (s : GalleryState),
    ∀ d ∈ firingDelays calls s, d = timerDelay s
  | [], _, d, hd => by simp [firingDelays] at hd
  | c :: cs, s, d, hd => by
      simp only [firingDelays, List.mem_cons] at hd
      rcases hd with rfl | hd
      · rfl
      · rw [firingDelays_const cs _ d hd, timerDelay_fireSwitchInterval]

theorem Draw.floorMulInt_nonneg (d : Draw) {x : Int} (hx : 0 ≤ x) : 0 ≤ d.floorMulInt x := by
  unfold Draw.floorMulInt
  exact Int.ediv_nonneg (Int.mul_nonneg (Int.ofNat_nonneg _) hx) (Int.ofNat_nonneg _)

theorem Draw.floorMulInt_lt (d : Draw) {x : Int} (hx : 0 < x) : d.floorMulInt x < x := by
  unfold Draw.floorMulInt
  have hd : (0 : Int) < (d.den : Int) := by
    have := d.lt
    omega
  rw [Int.ediv_lt_iff_lt_mul hd]
  have hlt : (d.num : Int) < (d.den : Int) := by
    have := d.lt
    omega
  calc (d.num : Int) * x < (d.den : Int) * x := Int.mul_lt_mul_of_pos_right hlt hx
    _ = x * (d.den : Int) := Int.mul_comm _ _

theorem getRandomInterval_bounds (min max : Int) (d : Draw) (h : min ≤ max) :
    min ≤ getRandomInterval min max d ∧ getRandomInterval min max d ≤ max := by
  unfold getRandomInterval
  have h0 := d.floorMulInt_nonneg (show (0 : Int) ≤ max - min + 1 by omega)
  have h1 := d.floorMulInt_lt (show (0 : Int) < max - min + 1 by omega)
  constructor <;> omega

/-- The timer that page load starts (pool not empty, motion not reduced). -/
theorem timerDelay_loadGalleryAssets (manifest : Option (List ImageName)) (width : Nat)
    (rng : Rng) (h : manifest.getD fallbackImages ≠ []) :
    timerDelay (loadGalleryAssets true manifest width false rng GalleryState.initial)
      = some (getRandomInterval 6000 8000
          (rng ((manifest.getD fallbackImages).length - 1))) := by
  cases manifest with
  | none =>
    simp [loadGalleryAssets, startImageSwitching, GalleryState.initial, timerDelay,
      fallbackImages]
  | some imgs =>
    have hne : imgs ≠ [] := by simpa using h
    simp [loadGalleryAssets, startImageSwitching, GalleryState.initial, timerDelay, hne]

theorem runGallery_timersCreated : ∀ (events : List GalleryEvent) (s : GalleryState),
    (runGallery events s).timersCreated = s.timersCreated
      ∧ (runGallery events s).intervals = s.intervals
  | [], _ => ⟨rfl, rfl⟩
  | e :: es, s => by
      have ih := runGallery_timersCreated es (e.apply s)
      have he : (e.apply s).timersCreated = s.timersCreated
          ∧ (e.apply s).intervals = s.intervals := by
        cases e with
        | timerFires width rng =>
          exact ⟨(fireSwitchInterval_timers width rng s).2.2,
            (fireSwitchInterval_timers width rng s).2.1⟩
        | resize container width rng =>
          exact ⟨(handleGalleryResize_timers container width rng s).2.2,
            (handleGalleryResize_timers container width rng s).2.1⟩
      simp only [runGallery, List.foldl_cons] at ih ⊢
      exact ⟨ih.1.trans he.1, ih.2.trans he.2⟩

theorem threeReset_reachable : Reachable threeReset :=
  Reachable.rotate 700 highDraws threeLoaded_reachable

/-! ## The carousel -/

theorem handleMouseUpOn_index (fp : HostArith) (rectWidth : ℚ) (s : CarouselState)
    (h : s.isDragging = true) :
    (handleMouseUpOn fp rectWidth s).index
      = snapIndexOn fp s.index s.totalCards (getCardWidthOn fp s.cardsLength rectWidth)
          (fp.sub s.currentX s.startX) := by
  simp only [handleMouseUpOn, h, snapIndexOn, Bool.not_true, Bool.false_eq_true, if_false]
  split_ifs <;>
    first
      | rfl
      | (exfalso; simp_all; done)
      | (exfalso; simp_all; linarith)

theorem handleTouchEndOn_index (fp : HostArith) (clientX rectWidth : ℚ) (s : CarouselState)
    (h : s.isDragging = true) :
    (handleTouchEndOn fp clientX rectWidth s).index
      = snapIndexOn fp s.index s.totalCards (getCardWidthOn fp s.cardsLength rectWidth)
          (fp.sub clientX s.touchStartX) := by
  simp only [handleTouchEndOn, h, snapIndexOn, Bool.not_true, Bool.false_eq_true, if_false]
  split_ifs <;>
    first
      | rfl
      | (exfalso; simp_all; done)
      | (exfalso; simp_all; linarith)

/-- On arithmetic without rounding the handlers are `handleMouseUp` and
`handleTouchEnd`. -/
theorem handlers_on_exactArith (clientX rectWidth : ℚ) (s : CarouselState) :
    handleMouseUpOn exactArith rectWidth s = handleMouseUp rectWidth s
      ∧ handleTouchEndOn exactArith clientX rectWidth s = handleTouchEnd clientX rectWidth s :=
  ⟨rfl, rfl⟩

theorem snapIndexOn_bounds (fp : HostArith) (index L : Int) (W moved : ℚ) (h0 : 0 ≤ index)
    (h1 : index ≤ L) (hne : snapIndexOn fp index L W moved ≠ index) :
    0 ≤ snapIndexOn fp index L W moved ∧ snapIndexOn fp index L W moved ≤ L - 1 := by
  unfold snapIndexOn at hne ⊢
  split_ifs at hne ⊢ <;> first | exact absurd rfl hne | omega

theorem snapIndexOn_step (fp : HostArith) (index L : Int) (W moved : ℚ) :
    snapIndexOn fp index L W moved = index ∨ snapIndexOn fp index L W moved = index + 1
      ∨ snapIndexOn fp index L W moved = index - 1 := by
  unfold snapIndexOn
  split_ifs <;> simp

theorem snapIndexOn_first (fp : HostArith) (L : Int) (W moved : ℚ) (hm : 0 < moved) :
    snapIndexOn fp 0 L W moved = 0 := by
  unfold snapIndexOn
  have : ¬ moved < 0 := not_lt.mpr hm.le
  simp [this]

theorem snapIndexOn_last (fp : HostArith) (L : Int) (W moved : ℚ) (hm : moved < 0) :
    snapIndexOn fp (L - 1) L W moved = L - 1 := by
  unfold snapIndexOn
  simp [hm]

theorem repeatedRotated_reachable : Reachable repeatedRotated :=
  Reachable.rotate 1200 highDraws
    (Reachable.rotate 700 highDraws
      (Reachable.init true (some repeatedImages) 1200 false firstLowDraws))

theorem stopSlide_frame (s : CarouselState) :
    (stopSlide s).cardsLength = s.cardsLength ∧ (stopSlide s).index = s.index
      ∧ (stopSlide s).totalCards = s.totalCards
      ∧ (stopSlide s).intervalsCreated = s.intervalsCreated := by
  unfold stopSlide
  split <;> exact ⟨rfl, rfl, rfl, rfl⟩

theorem startSlide_cardsLength (s : CarouselState) :
    (startSlide s).cardsLength = s.cardsLength := by
  simp only [startSlide]
  exact (stopSlide_frame s).1

theorem CarouselEvent.apply_cardsLength (e : CarouselEvent) (s : CarouselState) :
    (e.apply s).cardsLength = s.cardsLength := by
  cases e with
  | tick w =>
    simp only [CarouselEvent.apply, nextSlide]
    split_ifs <;> rfl
  | timeout k =>
    simp only [CarouselEvent.apply, fireTimeout]
    split
    · rfl
    · rfl
    · exact startSlide_cardsLength _
  | mouseDown x w => exact (stopSlide_frame _).1
  | mouseMove x =>
    simp only [CarouselEvent.apply, handleMouseMove]
    split_ifs <;> rfl
  | mouseUp w =>
    simp only [CarouselEvent.apply, handleMouseUp]
    split_ifs <;> rfl
  | touchStart x w => exact (stopSlide_frame _).1
  | touchMove x =>
    simp only [CarouselEvent.apply, handleTouchMove]
    split_ifs <;> rfl
  | touchEnd x w =>
    simp only [CarouselEvent.apply, handleTouchEnd]
    split_ifs <;> rfl
  | mouseEnter => exact (stopSlide_frame _).1
  | mouseLeave => exact startSlide_cardsLength _
  | resize w => rfl

theorem runCarousel_cardsLength : ∀ (events : List CarouselEvent) (s : CarouselState),
    (runCarousel events s).cardsLength = s.cardsLength
  | [], _ => rfl
  | e :: es, s => by
      simp only [runCarousel, List.foldl_cons]
      exact (runCarousel_cardsLength es (e.apply s)).trans (e.apply_cardsLength s)

/-- A carousel that was set up has at least one card, at all times. -/
theorem cardsLength_ne_zero (track : Bool) (cardsLength : Nat) (carousel : Bool)
    (prefersReducedMotion : Bool) (s : CarouselState) (events : List CarouselEvent)
    (h : initReviewsAnimation track cardsLength carousel prefersReducedMotion = some s) :
    (runCarousel events s).cardsLength ≠ 0 := by
  rw [runCarousel_cardsLength]
  unfold initReviewsAnimation at h
  split_ifs at h with h1 h2
  have hs : s = carouselInit cardsLength := (Option.some.inj h).symm
  rw [hs]
  simp only [carouselInit]
  intro h0
  apply h1
  simp [h0]

theorem initReviewsAnimation_reduced (track : Bool) (cardsLength : Nat) (carousel : Bool) :
    initReviewsAnimation track cardsLength carousel true = none := by
  unfold initReviewsAnimation
  split_ifs with h1 h2
  · rfl
  · rfl
  · exact absurd rfl h2

theorem loadGalleryAssets_reduced (container : Bool) (manifest : Option (List ImageName))
    (width : Nat) (rng : Rng) :
    (loadGalleryAssets container manifest width true rng GalleryState.initial).timersCreated = 0
      ∧ (loadGalleryAssets container manifest width true rng GalleryState.initial).intervals
        = []
      ∧ (loadGalleryAssets container manifest width true rng
          GalleryState.initial).switchInterval = none := by
  cases container with
  | false => exact ⟨rfl, rfl, rfl⟩
  | true =>
    cases manifest with
    | none => exact ⟨rfl, rfl, rfl⟩
    | some imgs =>
      by_cases h : imgs.length = 0
      · simp [loadGalleryAssets, h, GalleryState.initial]
      · simp [loadGalleryAssets, h, startImageSwitching, GalleryState.initial]

/-- A page without carousel and with the gallery timers it has: events keep the
carousel absent and the timers of the gallery as they are. -/
theorem runPage_no_carousel : ∀ (events : List PageEvent) (p : Page), p.carousel = none →
    (runPage events p).carousel = none
      ∧ (runPage events p).gallery.timersCreated = p.gallery.timersCreated
      ∧ (runPage events p).gallery.intervals = p.gallery.intervals
      ∧ (runPage events p).gallery.switchInterval = p.gallery.switchInterval
  | [], _, h => ⟨h, rfl, rfl, rfl⟩
  | e :: es, p, h => by
      have hstep : (e.apply p).carousel = none
          ∧ (e.apply p).gallery.timersCreated = p.gallery.timersCreated
          ∧ (e.apply p).gallery.intervals = p.gallery.intervals
          ∧ (e.apply p).gallery.switchInterval = p.gallery.switchInterval := by
        cases e with
        | gallery g =>
          refine ⟨h, ?_⟩
          cases g with
          | timerFires w r =>
            obtain ⟨a, b, c⟩ := fireSwitchInterval_timers w r p.gallery
            exact ⟨c, b, a⟩
          | resize ct w r =>
            obtain ⟨a, b, c⟩ := handleGalleryResize_timers ct w r p.gallery
            exact ⟨c, b, a⟩
        | carousel c =>
          simp [PageEvent.apply, h]
      have ih := runPage_no_carousel es (e.apply p) hstep.1
      simp only [runPage, List.foldl_cons] at ih ⊢
      exact ⟨ih.1, ih.2.1.trans hstep.2.1, ih.2.2.1.trans hstep.2.2.1,
        ih.2.2.2.trans hstep.2.2.2⟩

theorem nextSlide_eq (rectWidth : ℚ) (s : CarouselState) (hd : s.isDragging = false) :
    nextSlide rectWidth s =
      { s with
        index := s.index + 1,
        transform := -((s.index + 1 : Int) : ℚ) * getCardWidth s.cardsLength rectWidth,
        initialTranslate := -((s.index + 1 : Int) : ℚ) * getCardWidth s.cardsLength rectWidth,
        timeouts := if s.index + 1 ≥ s.totalCards then
            s.timeouts ++ [CarouselTimeout.wrapReset]
          else s.timeouts } := by
  simp only [nextSlide, hd, Bool.false_eq_true, if_false]
  split_ifs <;> rfl

/-! ## The autoplay timer of the carousel -/

theorem stopSlide_paused (s : CarouselState) (h : OneInterval s) :
    (stopSlide s).intervals = [] ∧ (stopSlide s).slideInterval = none := by
  unfold OneInterval at h
  unfold stopSlide
  cases hs : s.slideInterval with
  | none =>
    rw [hs] at h
    exact ⟨h, hs⟩
  | some handle =>
    rw [hs] at h
    simp [h]

theorem stopSlide_intervalsCreated (s : CarouselState) :
    (stopSlide s).intervalsCreated = s.intervalsCreated :=
  (stopSlide_frame s).2.2.2

theorem startSlide_running (s : CarouselState) (h : OneInterval s) :
    (startSlide s).intervals = [s.intervalsCreated + 1]
      ∧ (startSlide s).slideInterval = some (s.intervalsCreated + 1) := by
  obtain ⟨h1, _⟩ := stopSlide_paused s h
  simp only [startSlide, h1, stopSlide_intervalsCreated, List.nil_append, and_self]

theorem stopSlide_oneInterval (s : CarouselState) (h : OneInterval s) :
    OneInterval (stopSlide s) := by
  obtain ⟨h1, h2⟩ := stopSlide_paused s h
  simp [OneInterval, h1, h2]

theorem startSlide_oneInterval (s : CarouselState) (h : OneInterval s) :
    OneInterval (startSlide s) := by
  obtain ⟨h1, h2⟩ := startSlide_running s h
  simp [OneInterval, h1, h2]

/-- The handlers other than `startSlide` and `stopSlide` leave the timer alone. -/
theorem handlers_keep_timer (s : CarouselState) (x w : ℚ) :
    ((nextSlide w s).intervals = s.intervals
        ∧ (nextSlide w s).slideInterval = s.slideInterval)
      ∧ ((handleMouseMove x s).intervals = s.intervals
        ∧ (handleMouseMove x s).slideInterval = s.slideInterval)
      ∧ ((handleMouseUp w s).intervals = s.intervals
        ∧ (handleMouseUp w s).slideInterval = s.slideInterval)
      ∧ ((handleTouchMove x s).intervals = s.intervals
        ∧ (handleTouchMove x s).slideInterval = s.slideInterval)
      ∧ ((handleTouchEnd x w s).intervals = s.intervals
        ∧ (handleTouchEnd x w s).slideInterval = s.slideInterval)
      ∧ ((handleCarouselResize w s).intervals = s.intervals
        ∧ (handleCarouselResize w s).slideInterval = s.slideInterval) := by
  refine ⟨?_, ?_, ?_, ?_, ?_, ⟨rfl, rfl⟩⟩
  · simp only [nextSlide]
    split_ifs <;> exact ⟨rfl, rfl⟩
  · simp only [handleMouseMove]
    split_ifs <;> exact ⟨rfl, rfl⟩
  · simp only [handleMouseUp]
    split_ifs <;> exact ⟨rfl, rfl⟩
  · simp only [handleTouchMove]
    split_ifs <;> exact ⟨rfl, rfl⟩
  · simp only [handleTouchEnd]
    split_ifs <;> exact ⟨rfl, rfl⟩

theorem CarouselEvent.apply_oneInterval (e : CarouselEvent) (s : CarouselState)
    (h : OneInterval s) : OneInterval (e.apply s) := by
  have keep : ∀ t : CarouselState, t.intervals = s.intervals →
      t.slideInterval = s.slideInterval → OneInterval t := by
    intro t h1 h2
    unfold OneInterval at h ⊢
    rw [h1, h2, h]
  cases e with
  | tick w =>
    simp only [CarouselEvent.apply]
    split_ifs
    · exact h
    · exact keep _ (handlers_keep_timer s 0 w).1.1 (handlers_keep_timer s 0 w).1.2
  | timeout k =>
    simp only [CarouselEvent.apply, fireTimeout]
    split
    · exact h
    · exact keep _ rfl rfl
    · exact startSlide_oneInterval _ (keep _ rfl rfl)
  | mouseDown x w => exact stopSlide_oneInterval _ (keep _ rfl rfl)
  | mouseMove x =>
    exact keep _ (handlers_keep_timer s x 0).2.1.1 (handlers_keep_timer s x 0).2.1.2
  | mouseUp w =>
    exact keep _ (handlers_keep_timer s 0 w).2.2.1.1 (handlers_keep_timer s 0 w).2.2.1.2
  | touchStart x w => exact stopSlide_oneInterval _ (keep _ rfl rfl)
  | touchMove x =>
    exact keep _ (handlers_keep_timer s x 0).2.2.2.1.1 (handlers_keep_timer s x 0).2.2.2.1.2
  | touchEnd x w =>
    exact keep _ (handlers_keep_timer s x w).2.2.2.2.1.1
      (handlers_keep_timer s x w).2.2.2.2.1.2
  | mouseEnter => exact stopSlide_oneInterval s h
  | mouseLeave => exact startSlide_oneInterval s h
  | resize w => exact keep _ rfl rfl

theorem runCarousel_oneInterval : ∀ (events : List CarouselEvent) (s : CarouselState),
    OneInterval s → OneInterval (runCarousel events s)
  | [], _, h => h
  | e :: es, s, h => by
      simp only [runCarousel, List.foldl_cons]
      exact runCarousel_oneInterval es (e.apply s) (e.apply_oneInterval s h)

theorem carouselInit_oneInterval (cardsLength : Nat) : OneInterval (carouselInit cardsLength) :=
  rfl

/-- While the timer is stopped, an event that does not call `startSlide` leaves it
stopped. -/
theorem CarouselEvent.apply_paused (e : CarouselEvent) (s : CarouselState)
    (h1 : s.intervals = []) (h2 : s.slideInterval = none)
    (hr : restartsAutoplay s e = false) :
    (e.apply s).intervals = [] ∧ (e.apply s).slideInterval = none := by
  have hone : OneInterval s := by simp [OneInterval, h1, h2]
  have keep : ∀ t : CarouselState, t.intervals = s.intervals →
      t.slideInterval = s.slideInterval → t.intervals = [] ∧ t.slideInterval = none := by
    intro t a b
    exact ⟨a.trans h1, b.trans h2⟩
  have keepOne : ∀ t : CarouselState, t.intervals = s.intervals →
      t.slideInterval = s.slideInterval → OneInterval t := by
    intro t a b
    unfold OneInterval at hone ⊢
    rw [a, b, hone]
  cases e with
  | tick w =>
    have ht : (CarouselEvent.tick w).apply s = s := by
      simp only [CarouselEvent.apply, h1, if_true]
    rw [ht]
    exact ⟨h1, h2⟩
  | timeout k =>
    simp only [restartsAutoplay] at hr
    simp only [CarouselEvent.apply, fireTimeout]
    split
    · exact ⟨h1, h2⟩
    · exact keep _ rfl rfl
    · rename_i d hd
      rw [hd] at hr
      exact absurd hr (by simp)
  | mouseDown x w => exact stopSlide_paused _ (keepOne _ rfl rfl)
  | mouseMove x =>
    exact keep _ (handlers_keep_timer s x 0).2.1.1 (handlers_keep_timer s x 0).2.1.2
  | mouseUp w =>
    exact keep _ (handlers_keep_timer s 0 w).2.2.1.1 (handlers_keep_timer s 0 w).2.2.1.2
  | touchStart x w => exact stopSlide_paused _ (keepOne _ rfl rfl)
  | touchMove x =>
    exact keep _ (handlers_keep_timer s x 0).2.2.2.1.1 (handlers_keep_timer s x 0).2.2.2.1.2
  | touchEnd x w =>
    exact keep _ (handlers_keep_timer s x w).2.2.2.2.1.1
      (handlers_keep_timer s x w).2.2.2.2.1.2
  | mouseEnter => exact stopSlide_paused s hone
  | mouseLeave => simp [restartsAutoplay] at hr
  | resize w => exact keep _ rfl rfl

theorem runStates_paused : ∀ (events : List CarouselEvent) (s : CarouselState),
    s.intervals = [] → s.slideInterval = none → noRestart events s = true →
    ∀ t ∈ runStates events s, t.intervals = [] ∧ t.slideInterval = none
  | [], _, _, _, _, t, ht => by simp [runStates] at ht
  | e :: es, s, h1, h2, hn, t, ht => by
      simp only [noRestart, Bool.and_eq_true, Bool.not_eq_true'] at hn
      have hstep := e.apply_paused s h1 h2 hn.1
      simp only [runStates, List.mem_cons] at ht
      rcases ht with rfl | ht
      · exact hstep
      · exact runStates_paused es (e.apply s) hstep.1 hstep.2 hn.2 t ht

/-! ## The claims -/

/-- C5: `getVisibleImageCount` returns 1 for a width up to 768, 2 for a width above
768 and up to 1024, and 4 above; the result is always 1, 2 or 4, and the boundary
widths 768, 769, 1024, 1025 give 1, 2, 2, 4. -/
theorem getVisibleImageCount_spec (w : Nat) :
    getVisibleImageCount w
        = (if w ≤ 768 then 1 else if 768 < w ∧ w ≤ 1024 then 2 else 4)
      ∧ (getVisibleImageCount w = 1 ∨ getVisibleImageCount w = 2
          ∨ getVisibleImageCount w = 4)
      ∧ getVisibleImageCount 768 = 1 ∧ getVisibleImageCount 769 = 2
      ∧ getVisibleImageCount 1024 = 2 ∧ getVisibleImageCount 1025 = 4 := by
  refine ⟨?_, ?_, by decide, by decide, by decide, by decide⟩
  · unfold getVisibleImageCount
    split_ifs <;> first | rfl | omega
  · unfold getVisibleImageCount
    split_ifs <;> simp

/-- C1 (as stated, refuted): with the built-in fallback list as pool (10 entries, at
least the 4 visible on a desktop viewport) the state after page load is reachable by
rotations, and after one more `switchRandomImage` the VisibleSet still holds
`IMG_20260110_163141.jpg` twice. -/
theorem visibleUnique_fails_on_fallback_list :
    RotationReachable fallbackLoaded
      ∧ getVisibleImageCount 1200 ≤ fallbackLoaded.allImages.length
      ∧ ¬ VisibleUnique (switchRandomImage 1200 highDraws fallbackLoaded) := by
  refine ⟨fallbackLoaded_rotationReachable, by decide, ?_⟩
  unfold VisibleUnique
  decide

/-- C1 (amended): for every pool without duplicate identifiers and every state
reachable from initialization by calls of `switchRandomImage`, under any draws and
viewport widths, the VisibleSet after `switchRandomImage` holds no identifier twice. -/
theorem visibleUnique_after_rotation (s : GalleryState) (hs : RotationReachable s)
    (hp : s.allImages.Nodup) (width : Nat) (rng : Rng) :
    VisibleUnique (switchRandomImage width rng s) :=
  switchRandomImage_unique width rng s hp (hs.reachable.visibleUnique hp)

theorem visibleUnique_after_rotation_witness :
    RotationReachable fiveLoaded ∧ fiveLoaded.allImages.Nodup
      ∧ VisibleUnique (switchRandomImage 1200 highDraws fiveLoaded) :=
  ⟨fiveLoaded_rotationReachable, by decide,
    visibleUnique_after_rotation fiveLoaded fiveLoaded_rotationReachable (by decide)
      1200 highDraws⟩

/-- C2: on the single-swap path of `switchRandomImage` (pool larger than the visible
count, `available` non-empty, at least one tile) the identifier written into the
chosen slot is a pool member that was not in the VisibleSet before the call; and
whenever a call puts into a slot a new value that was already in the VisibleSet,
`available` was empty (full-reset path). -/
theorem switchRandomImage_selects_unseen (width : Nat) (rng : Rng) (s : GalleryState) :
    (getVisibleImageCount width < s.allImages.length → availableImages s ≠ [] →
        s.galleryItems ≠ [] →
        ∃ x, x ∈ s.allImages ∧ some x ∉ s.visibleImages
          ∧ (switchRandomImage width rng s).visibleImages =
            jsAssign s.visibleImages
              ((rng 0).floorMul (min (getVisibleImageCount width) s.galleryItems.length)) x)
      ∧ (∀ i y, jsRead (switchRandomImage width rng s).visibleImages i = some y →
          jsRead (switchRandomImage width rng s).visibleImages i ≠ jsRead s.visibleImages i →
          some y ∈ s.visibleImages → availableImages s = []) := by
  constructor
  · intro h1 h2 h3
    obtain ⟨x, item, hx, _, he⟩ := switchRandomImage_swap width rng s h1 h2 h3
    exact ⟨x, ((mem_availableImages s x).mp hx).1, ((mem_availableImages s x).mp hx).2,
      by rw [he]⟩
  · intro i y hy hne hmem
    rcases switchRandomImage_cases width rng s with h | ⟨_, ha, _⟩ | ⟨_, x, item, k, hx, _, h⟩
    · rw [h] at hne; exact absurd rfl hne
    · exact ha
    · exfalso
      rw [h] at hy hne
      simp only [jsRead_jsAssign] at hy hne
      by_cases hik : i = k
      · simp only [hik, if_true, Option.some.injEq] at hy
        subst hy
        exact ((mem_availableImages s x).mp hx).2 hmem
      · simp only [hik, if_false] at hne
        exact hne rfl

theorem switchRandomImage_selects_unseen_witness :
    getVisibleImageCount 1200 < fiveLoaded.allImages.length ∧ availableImages fiveLoaded ≠ []
      ∧ fiveLoaded.galleryItems ≠ []
      ∧ ∃ x, x ∈ fiveLoaded.allImages ∧ some x ∉ fiveLoaded.visibleImages
          ∧ (switchRandomImage 1200 highDraws fiveLoaded).visibleImages =
            jsAssign fiveLoaded.visibleImages
              ((highDraws 0).floorMul
                (min (getVisibleImageCount 1200) fiveLoaded.galleryItems.length)) x :=
  ⟨by decide, by decide, by decide,
    (switchRandomImage_selects_unseen 1200 highDraws fiveLoaded).1
      (by decide) (by decide) (by decide)⟩

/-- C3 (as stated, refuted): in the state `noTiles` (no tile) and in the reachable
state `threeShrunk` (3 tiles, 1 slot) `available` is non-empty and the pool is larger
than the visible count. In the first, `switchRandomImage` returns at its guard
`galleryItems.length === 0` and no slot changes; in the second, on a viewport of
width 800, it writes slot 1 and the VisibleSet grows from one slot to two. -/
theorem single_swap_not_one_slot :
    (availableImages noTiles ≠ []
        ∧ getVisibleImageCount 700 < noTiles.allImages.length
        ∧ switchRandomImage 700 highDraws noTiles = noTiles)
      ∧ (Reachable threeShrunk ∧ availableImages threeShrunk ≠ []
        ∧ getVisibleImageCount 800 < threeShrunk.allImages.length
        ∧ threeShrunk.visibleImages.length = 1
        ∧ (switchRandomImage 800 highDraws threeShrunk).visibleImages.length = 2) := by
  refine ⟨⟨?_, ?_, ?_⟩, threeShrunk_reachable, ?_, ?_, ?_, ?_⟩ <;> decide

/-- C3 (amended): in every state in which `available` is non-empty, the pool is larger
than the visible count, there is at least one tile and the slots that can be chosen
lie inside the VisibleSet (`min(visibleCount, galleryItems.length)` is at most
`visibleImages.length`, as when tiles and slots are 1:1), one call of
`switchRandomImage` changes exactly one slot: the VisibleSet keeps its length, every
slot but the chosen one is as before, and the chosen slot holds a different
identifier. In particular for the pool A, B, C, D, E, a VisibleSet of 4 distinct pool
members, 4 tiles and visible count 4, the new value is the single element of the pool
outside the old VisibleSet. -/
theorem switchRandomImage_changes_one_slot (width : Nat) (rng : Rng) (s : GalleryState) :
    (availableImages s ≠ [] → getVisibleImageCount width < s.allImages.length →
        s.galleryItems ≠ [] →
        min (getVisibleImageCount width) s.galleryItems.length ≤ s.visibleImages.length →
        (rng 0).floorMul (min (getVisibleImageCount width) s.galleryItems.length)
            < s.visibleImages.length
          ∧ (switchRandomImage width rng s).visibleImages.length = s.visibleImages.length
          ∧ (∀ k, k ≠ (rng 0).floorMul
                (min (getVisibleImageCount width) s.galleryItems.length) →
              (switchRandomImage width rng s).visibleImages[k]? = s.visibleImages[k]?)
          ∧ (switchRandomImage width rng s).visibleImages[(rng 0).floorMul
                (min (getVisibleImageCount width) s.galleryItems.length)]?
              ≠ s.visibleImages[(rng 0).floorMul
                (min (getVisibleImageCount width) s.galleryItems.length)]?
          ∧ ∃ x, (switchRandomImage width rng s).visibleImages[(rng 0).floorMul
                (min (getVisibleImageCount width) s.galleryItems.length)]? = some (some x))
      ∧ (∀ v : List ImageName, s.allImages = fiveImages → s.visibleImages = v.map some →
          v.Nodup → v.length = 4 → (∀ x ∈ v, x ∈ fiveImages) →
          s.galleryItems.length = 4 → getVisibleImageCount width = 4 →
          ∃ x, availableImages s = [x]
            ∧ (rng 0).floorMul (min (getVisibleImageCount width) s.galleryItems.length) < 4
            ∧ (switchRandomImage width rng s).visibleImages =
              (v.map some).set
                ((rng 0).floorMul (min (getVisibleImageCount width) s.galleryItems.length))
                (some x)) := by
  constructor
  · intro h2 h1 h3 h4
    obtain ⟨x, item, hx, _, he⟩ := switchRandomImage_swap width rng s h1 h2 h3
    have hi := lt_of_lt_of_le (randomItemIndex_lt width rng s h3) h4
    have hnot := ((mem_availableImages s x).mp hx).2
    refine ⟨hi, ?_, ?_, ?_, x, ?_⟩
    · rw [he]
      simp only [jsAssign, hi, if_true, List.length_set]
    · intro k hk
      rw [he]
      simp only [jsAssign, hi, if_true, List.getElem?_set, Ne.symm hk, if_false]
    · rw [he]
      simp only [jsAssign, hi, if_true, List.getElem?_set]
      intro hcon
      exact hnot (List.getElem?_mem hcon.symm)
    · rw [he]
      simp only [jsAssign, hi, if_true, List.getElem?_set]
  · intro v hp hv hn hl hm ht hc
    obtain ⟨x, hx⟩ := availableImages_five s v hp hv hn hl hm
    have h3 : s.galleryItems ≠ [] := by
      intro h0
      rw [h0] at ht
      simp at ht
    have h1 : getVisibleImageCount width < s.allImages.length := by
      rw [hc, hp]; decide
    have h2 : availableImages s ≠ [] := by rw [hx]; simp
    obtain ⟨y, item, hy, _, he⟩ := switchRandomImage_swap width rng s h1 h2 h3
    have hi := randomItemIndex_lt width rng s h3
    rw [hx, List.mem_singleton] at hy
    subst hy
    have hi4 : (rng 0).floorMul (min (getVisibleImageCount width) s.galleryItems.length)
        < 4 := by
      have : min (getVisibleImageCount width) s.galleryItems.length = 4 := by
        rw [hc, ht]; rfl
      omega
    refine ⟨y, hx, hi4, ?_⟩
    rw [he]
    simp only [jsAssign, hv, List.length_map, hl, hi4, if_true]

theorem switchRandomImage_changes_one_slot_witness :
    fiveLoaded.allImages = fiveImages
      ∧ fiveLoaded.visibleImages = ["A", "B", "C", "D"].map some
      ∧ fiveLoaded.galleryItems.length = 4 ∧ getVisibleImageCount 1200 = 4
      ∧ ∃ x, availableImages fiveLoaded = [x]
        ∧ (highDraws 0).floorMul
            (min (getVisibleImageCount 1200) fiveLoaded.galleryItems.length) < 4
        ∧ (switchRandomImage 1200 highDraws fiveLoaded).visibleImages =
          (["A", "B", "C", "D"].map some).set
            ((highDraws 0).floorMul
              (min (getVisibleImageCount 1200) fiveLoaded.galleryItems.length))
            (some x) :=
  ⟨by decide, by decide, by decide, by decide,
    (switchRandomImage_changes_one_slot 1200 highDraws fiveLoaded).2 ["A", "B", "C", "D"]
      (by decide) (by decide) (by decide) (by decide) (by decide) (by decide) (by decide)⟩

/-- C7: for a list of `N` pairwise distinct elements, the map from the index
sequences `(j_{N-1}, ..., j_1)` with `0 ≤ j_i ≤ i` to the ordering `shuffleArray`
returns under draws giving these indices is a bijection onto the orderings of the
list; every run of `shuffleArray` is the run of one such sequence; there are `N!`
sequences and `N!` orderings, and each ordering is produced by exactly one sequence,
that is by a fraction `1/N!` of the equally likely sequences. -/
theorem shuffleArray_bijection {α : Type} [DecidableEq α] (l : List α) (hl : l.Nodup) :
    Set.BijOn (fun js => shuffleArray l (drawsOf (l.length - 1) js))
        {js | js ∈ drawSeqs (l.length - 1)} {r | r.Perm l}
      ∧ (∀ js, js ∈ drawSeqs (l.length - 1) ↔
          js.length = l.length - 1 ∧ ∀ t j, js[t]? = some j → j ≤ l.length - 1 - t)
      ∧ (∀ rng : Rng,
          (shuffleSteps rng 0 (l.length - 1)).map Prod.snd ∈ drawSeqs (l.length - 1)
          ∧ shuffleArray l rng = shuffleArray l
              (drawsOf (l.length - 1) ((shuffleSteps rng 0 (l.length - 1)).map Prod.snd)))
      ∧ (drawSeqs (l.length - 1)).Nodup
      ∧ (drawSeqs (l.length - 1)).length = l.length.factorial
      ∧ l.permutations.Nodup ∧ l.permutations.length = l.length.factorial
      ∧ ∀ r : List α, r.Perm l →
          (((drawSeqs (l.length - 1)).filter
              (fun js => decide (shuffleArray l (drawsOf (l.length - 1) js) = r))).length : ℚ)
            / ((drawSeqs (l.length - 1)).length : ℚ) = 1 / (l.length.factorial : ℚ) := by
  have hbij := shuffleArray_bijOn l hl
  have hcount : (drawSeqs (l.length - 1)).length = l.length.factorial := by
    rw [drawSeqs_length]
    cases l with
    | nil => rfl
    | cons x xs => simp
  refine ⟨hbij, mem_drawSeqs_iff _, ?_, drawSeqs_nodup _, hcount,
    List.nodup_permutations l hl, List.length_permutations l, ?_⟩
  · intro rng
    have hmem := shuffleSteps_mem_drawSeqs rng (l.length - 1) 0
    refine ⟨hmem, ?_⟩
    rw [shuffleArray_drawsOf l _ hmem]
    exact shuffleLoop_eq_shuffleWith rng _ 0 l
  · intro r hr
    obtain ⟨js, hjs, hjse⟩ := hbij.2.2 hr
    have hone := length_filter_eq_one (drawSeqs (l.length - 1))
      (fun js => decide (shuffleArray l (drawsOf (l.length - 1) js) = r)) js
      (drawSeqs_nodup _) hjs (by simpa using hjse)
      (by
        intro js2 hjs2 h2
        have h2e : shuffleArray l (drawsOf (l.length - 1) js2) = r := by simpa using h2
        exact hbij.2.1 hjs2 hjs (h2e.trans hjse.symm))
    rw [hone, hcount]
    simp

theorem shuffleArray_bijection_witness :
    threeImages.Nodup
      ∧ (drawSeqs (threeImages.length - 1)).length = threeImages.length.factorial :=
  ⟨by decide, (shuffleArray_bijection threeImages (by decide)).2.2.2.2.1⟩

/-- C8: for every non-empty pool and every viewport width, page load stores the pool
and takes as initial VisibleSet the first `min(visibleCount, poolSize)` elements of
the shuffled pool, a permutation of the pool; one tile is created per slot, in slot
order; when the pool is smaller than the visible count the VisibleSet is a
permutation of the whole pool. -/
theorem loadGalleryAssets_initial_selection (manifest : Option (List ImageName))
    (width : Nat) (prefersReducedMotion : Bool) (rng : Rng)
    (h : manifest.getD fallbackImages ≠ []) :
    (shuffleArray (manifest.getD fallbackImages) rng).Perm (manifest.getD fallbackImages)
      ∧ (loadGalleryAssets true manifest width prefersReducedMotion rng
          GalleryState.initial).allImages = manifest.getD fallbackImages
      ∧ (loadGalleryAssets true manifest width prefersReducedMotion rng
          GalleryState.initial).visibleImages =
          ((shuffleArray (manifest.getD fallbackImages) rng).take
            (min (getVisibleImageCount width) (manifest.getD fallbackImages).length)).map some
      ∧ (loadGalleryAssets true manifest width prefersReducedMotion rng
          GalleryState.initial).visibleImages.length =
          min (getVisibleImageCount width) (manifest.getD fallbackImages).length
      ∧ (loadGalleryAssets true manifest width prefersReducedMotion rng
          GalleryState.initial).galleryItems =
          ((shuffleArray (manifest.getD fallbackImages) rng).take
            (min (getVisibleImageCount width) (manifest.getD fallbackImages).length)).map
            createGalleryItem
      ∧ (loadGalleryAssets true manifest width prefersReducedMotion rng
          GalleryState.initial).galleryItems.map (fun item => some item.imageName) =
          (loadGalleryAssets true manifest width prefersReducedMotion rng
            GalleryState.initial).visibleImages
      ∧ ((manifest.getD fallbackImages).length < getVisibleImageCount width →
          (loadGalleryAssets true manifest width prefersReducedMotion rng
            GalleryState.initial).visibleImages.Perm
            ((manifest.getD fallbackImages).map some)) := by
  have hperm := shuffleArray_perm (manifest.getD fallbackImages) rng
  have htake : (shuffleArray (manifest.getD fallbackImages) rng).take
      (min (getVisibleImageCount width) (manifest.getD fallbackImages).length)
      = (shuffleArray (manifest.getD fallbackImages) rng).take (getVisibleImageCount width) := by
    rcases Nat.le_total (getVisibleImageCount width)
      (manifest.getD fallbackImages).length with hle | hle
    · rw [Nat.min_eq_left hle]
    · rw [Nat.min_eq_right hle, List.take_of_length_le (by rw [hperm.length_eq]),
        List.take_of_length_le (by rw [hperm.length_eq]; exact hle)]
  rcases loadGalleryAssets_cases true manifest width prefersReducedMotion rng with
    ⟨hc, _, _, _⟩ | ⟨_, _, ha, hv, ht⟩
  · rcases hc with hc | hc
    · exact absurd hc (by decide)
    · exact absurd hc h
  · refine ⟨hperm, ha, by rw [hv, htake], ?_, by rw [ht, htake], ?_, ?_⟩
    · rw [hv, List.length_map, List.length_take, hperm.length_eq]
    · rw [hv, ht, List.map_map]
      apply List.map_congr_left
      intro a _
      rfl
    · intro hlt
      rw [hv, List.take_of_length_le (by rw [hperm.length_eq]; omega)]
      exact hperm.map some

theorem loadGalleryAssets_initial_selection_witness :
    (some threeImages).getD fallbackImages ≠ []
      ∧ (loadGalleryAssets true (some threeImages) 1200 false highDraws
          GalleryState.initial).visibleImages.length =
          min (getVisibleImageCount 1200) ((some threeImages).getD fallbackImages).length :=
  ⟨by decide,
    (loadGalleryAssets_initial_selection (some threeImages) 1200 false highDraws
      (by decide)).2.2.2.1⟩

/-- C4: when the pool is not larger than the visible count of the current viewport,
`switchRandomImage` changes nothing: after any number of such calls, under any draws,
the state (VisibleSet, pool, tiles) is the one before. -/
theorem switchRandomImage_noop (s : GalleryState) (calls : List (Nat × Rng))
    (h : ∀ c ∈ calls, s.allImages.length ≤ getVisibleImageCount c.1) :
    rotateMany calls s = s
      ∧ (rotateMany calls s).visibleImages = s.visibleImages
      ∧ (rotateMany calls s).allImages = s.allImages
      ∧ (rotateMany calls s).galleryItems = s.galleryItems := by
  have key : rotateMany calls s = s := by
    induction calls with
    | nil => rfl
    | cons c cs ih =>
      have hc : switchRandomImage c.1 c.2 s = s := by
        simp [switchRandomImage, h c (List.mem_cons_self _ _)]
      simp only [rotateMany, List.foldl_cons, hc]
      exact ih (fun d hd => h d (List.mem_cons_of_mem _ hd))
  simp [key]

theorem switchRandomImage_noop_witness :
    (∀ c ∈ [(1200, highDraws), (1100, sixthLowDraws)],
        threeLoaded.allImages.length ≤ getVisibleImageCount c.1)
      ∧ rotateMany [(1200, highDraws), (1100, sixthLowDraws)] threeLoaded = threeLoaded :=
  ⟨by intro c hc; simp only [List.mem_cons, List.mem_singleton, List.not_mem_nil, or_false] at hc; rcases hc with rfl | rfl <;> decide,
    (switchRandomImage_noop threeLoaded [(1200, highDraws), (1100, sixthLowDraws)]
      (by intro c hc; simp only [List.mem_cons, List.mem_singleton, List.not_mem_nil, or_false] at hc; rcases hc with rfl | rfl <;> decide)).1⟩

/-- C9 (the code at the failing input): the manifest names A twice among its five
entries. After page load on a desktop viewport all of A, B, C, D are visible, so the
rotation at width 700 takes the full reset and cuts the VisibleSet to the slot A,
keeping the four tiles; the rotation at width 1200 then draws its slot among the
four tiles and writes `visibleImages[3]`: the reachable VisibleSet has four slots of
which the second and the third hold no pool member, and D is scheduled on the
fourth tile while the second tile shows D. -/
theorem empty_slots_after_reset :
    Reachable repeatedRotated
      ∧ repeatedRotated.allImages = ["A", "A", "B", "C", "D"]
      ∧ (switchRandomImage 700 highDraws repeatedLoaded).visibleImages = [some "A"]
      ∧ (switchRandomImage 700 highDraws repeatedLoaded).galleryItems.length = 4
      ∧ repeatedRotated.visibleImages = [some "A", none, none, some "D"]
      ∧ jsRead repeatedRotated.visibleImages 1 = none
      ∧ ¬ (∀ slot ∈ repeatedRotated.visibleImages,
            ∃ x, slot = some x ∧ x ∈ repeatedRotated.allImages)
      ∧ repeatedRotated.galleryItems.map (fun item => (item.imageName, item.scheduled))
          = [("A", []), ("D", []), ("B", []), ("C", ["D"])] := by
  refine ⟨repeatedRotated_reachable, by decide, by decide, by decide, by decide, by decide,
    ?_, by decide⟩
  intro h
  have hv : repeatedRotated.visibleImages = [some "A", none, none, some "D"] := by decide
  rw [hv] at h
  obtain ⟨x, hx, _⟩ := h none (by simp)
  exact absurd hx (by simp)

/-- C10 (the code at the failing input): a three-image gallery is loaded on a desktop
viewport, the viewport shrinks to 700 and the rotation timer fires before the
debounced resize callback. The full reset cuts the VisibleSet to one slot and keeps the
three tiles; the resize callback then finds `newCount = visibleImages.length` and
does not rebuild: the reachable state has 3 tiles, showing A, B and C, for 1 slot.
A later rotation on a viewport of width 800 takes C for available and schedules it
on the second tile, while the third tile shows C. -/
theorem tiles_outnumber_slots_after_reset :
    Reachable threeShrunk
      ∧ threeShrunk.visibleImages = [some "A"]
      ∧ threeShrunk.galleryItems.map (fun item => item.imageName) = ["A", "B", "C"]
      ∧ threeShrunk.galleryItems.length ≠ threeShrunk.visibleImages.length
      ∧ (switchRandomImage 800 highDraws threeShrunk).visibleImages = [some "A", some "C"]
      ∧ (switchRandomImage 800 highDraws threeShrunk).galleryItems.map
          (fun item => (item.imageName, item.scheduled)) =
          [("A", []), ("B", ["C"]), ("C", [])] := by
  refine ⟨threeShrunk_reachable, ?_, ?_, ?_, ?_, ?_⟩ <;> decide

/-- C11 (the code at the failing input): in the reachable state `threeReset` (pool of
three images, 3 tiles rendered, 1 slot) the debounced resize callback on a viewport
of width 700 finds a visible count of 1, different from the 3 rendered tiles, and
yet rebuilds nothing: it compares the count with `visibleImages.length`. -/
theorem resize_keeps_stale_tiles :
    Reachable threeReset ∧ threeReset.allImages ≠ []
      ∧ threeReset.galleryItems.length = 3 ∧ getVisibleImageCount 700 = 1
      ∧ getVisibleImageCount 700 ≠ threeReset.galleryItems.length
      ∧ handleGalleryResize true 700 highDraws threeReset = threeReset := by
  refine ⟨threeReset_reachable, ?_, ?_, ?_, ?_, ?_⟩ <;> decide

/-- C12 (as stated, refuted): in no run of the rotation timer, from any state, do
two firings have different delays; for instance after `fiveLoaded` three firings
whose own draws would give 7980, 6000 and 7980 are all preceded by the delay 7980
drawn at page load. -/
theorem rotation_delays_never_differ :
    (¬ ∃ (s : GalleryState) (calls : List (Nat × Rng)) (a b : Option Int),
        a ∈ firingDelays calls s ∧ b ∈ firingDelays calls s ∧ a ≠ b)
      ∧ firingDelays [(1200, highDraws), (1200, lowDraws), (700, highDraws)] fiveLoaded
          = [some 7980, some 7980, some 7980]
      ∧ getRandomInterval 6000 8000 (lowDraws 0) = 6000 := by
  refine ⟨?_, by decide, by decide⟩
  rintro ⟨s, calls, a, b, ha, hb, hab⟩
  exact hab ((firingDelays_const calls s a ha).trans (firingDelays_const calls s b hb).symm)

/-- C12 (amended): the delay of the rotation timer is sampled once, by
`startImageSwitching` at page load, from 6000 to 8000 ms; every firing of the timer
is preceded by this same delay, whatever the draws and viewport widths of the
firings. -/
theorem rotation_delay_fixed (manifest : Option (List ImageName)) (width : Nat) (rng : Rng)
    (calls : List (Nat × Rng)) (h : manifest.getD fallbackImages ≠ []) :
    timerDelay (loadGalleryAssets true manifest width false rng GalleryState.initial)
        = some (getRandomInterval 6000 8000
            (rng ((manifest.getD fallbackImages).length - 1)))
      ∧ 6000 ≤ getRandomInterval 6000 8000 (rng ((manifest.getD fallbackImages).length - 1))
      ∧ getRandomInterval 6000 8000 (rng ((manifest.getD fallbackImages).length - 1)) ≤ 8000
      ∧ ∀ d ∈ firingDelays calls
            (loadGalleryAssets true manifest width false rng GalleryState.initial),
          d = some (getRandomInterval 6000 8000
            (rng ((manifest.getD fallbackImages).length - 1))) := by
  have ht := timerDelay_loadGalleryAssets manifest width rng h
  have hb := getRandomInterval_bounds 6000 8000
    (rng ((manifest.getD fallbackImages).length - 1)) (by decide)
  refine ⟨ht, hb.1, hb.2, ?_⟩
  intro d hd
  rw [firingDelays_const calls _ d hd, ht]

theorem rotation_delay_fixed_witness :
    (some fiveImages).getD fallbackImages ≠ []
      ∧ ∀ d ∈ firingDelays [(1200, highDraws), (1200, lowDraws)]
            (loadGalleryAssets true (some fiveImages) 1200 false highDraws
              GalleryState.initial),
          d = some (getRandomInterval 6000 8000
            (highDraws (((some fiveImages).getD fallbackImages).length - 1))) :=
  ⟨by decide,
    (rotation_delay_fixed (some fiveImages) 1200 highDraws
      [(1200, highDraws), (1200, lowDraws)] (by decide)).2.2.2⟩

/-- C14: when the image list obtained at initialization is empty, `loadGalleryAssets`
shows the fallback placeholder and nothing else: pool, VisibleSet and tiles are
empty, `switchInterval` is `null` and no timer exists; no later timer firing or
resize callback changes this state. -/
theorem loadGalleryAssets_empty_list (manifest : Option (List ImageName)) (width : Nat)
    (prefersReducedMotion : Bool) (rng : Rng) (events : List GalleryEvent)
    (h : manifest.getD fallbackImages = []) :
    loadGalleryAssets true manifest width prefersReducedMotion rng GalleryState.initial
        = { GalleryState.initial with fallbackShown := true }
      ∧ (loadGalleryAssets true manifest width prefersReducedMotion rng
          GalleryState.initial).fallbackShown = true
      ∧ (loadGalleryAssets true manifest width prefersReducedMotion rng
          GalleryState.initial).allImages = []
      ∧ (loadGalleryAssets true manifest width prefersReducedMotion rng
          GalleryState.initial).visibleImages = []
      ∧ (loadGalleryAssets true manifest width prefersReducedMotion rng
          GalleryState.initial).galleryItems = []
      ∧ (loadGalleryAssets true manifest width prefersReducedMotion rng
          GalleryState.initial).switchInterval = none
      ∧ (loadGalleryAssets true manifest width prefersReducedMotion rng
          GalleryState.initial).intervals = []
      ∧ (loadGalleryAssets true manifest width prefersReducedMotion rng
          GalleryState.initial).timersCreated = 0
      ∧ runGallery events
          (loadGalleryAssets true manifest width prefersReducedMotion rng
            GalleryState.initial)
          = loadGalleryAssets true manifest width prefersReducedMotion rng
            GalleryState.initial := by
  have he : loadGalleryAssets true manifest width prefersReducedMotion rng
      GalleryState.initial = { GalleryState.initial with fallbackShown := true } := by
    cases manifest with
    | none => exact absurd h (by decide)
    | some imgs =>
      have h0 : imgs = [] := by simpa using h
      subst h0
      simp [loadGalleryAssets]
  rw [he]
  refine ⟨rfl, rfl, rfl, rfl, rfl, rfl, rfl, rfl, ?_⟩
  induction events with
  | nil => rfl
  | cons e es ih =>
    have hstep : e.apply { GalleryState.initial with fallbackShown := true }
        = { GalleryState.initial with fallbackShown := true } := by
      cases e with
      | timerFires w r => rfl
      | resize c w r =>
        simp [GalleryEvent.apply, handleGalleryResize, GalleryState.initial]
    simp only [runGallery, List.foldl_cons, hstep]
    exact ih

theorem loadGalleryAssets_empty_list_witness :
    (some ([] : List ImageName)).getD fallbackImages = []
      ∧ loadGalleryAssets true (some []) 1200 false highDraws GalleryState.initial
        = { GalleryState.initial with fallbackShown := true } :=
  ⟨by decide,
    (loadGalleryAssets_empty_list (some []) 1200 false highDraws [] (by decide)).1⟩

/-- C15: when reduced motion is signaled at initialization, neither the gallery nor
the carousel ever calls `setInterval`: after page load and any sequence of events
(timer, resize, hover, pointer and touch events) the number of interval timers
created is zero, the gallery has no timer and the carousel has not been set up. -/
theorem reduced_motion_creates_no_timer (container : Bool)
    (manifest : Option (List ImageName)) (width : Nat) (rng : Rng) (track : Bool)
    (cardsLength : Nat) (carousel : Bool) (events : List PageEvent) :
    intervalTimersCreated
        (runPage events
          (pageLoad container manifest width true rng track cardsLength carousel)) = 0
      ∧ (runPage events
          (pageLoad container manifest width true rng track cardsLength carousel)).gallery.intervals
        = []
      ∧ (runPage events
          (pageLoad container manifest width true rng track cardsLength
            carousel)).gallery.switchInterval = none
      ∧ (runPage events
          (pageLoad container manifest width true rng track cardsLength carousel)).carousel
        = none := by
  have hc : (pageLoad container manifest width true rng track cardsLength carousel).carousel
      = none := initReviewsAnimation_reduced track cardsLength carousel
  obtain ⟨h1, h2, h3, h4⟩ := runPage_no_carousel events _ hc
  obtain ⟨g1, g2, g3⟩ := loadGalleryAssets_reduced container manifest width rng
  refine ⟨?_, ?_, ?_, h1⟩
  · simp only [intervalTimersCreated, h1, h2, Option.map_none', Option.getD_none]
    exact g1
  · rw [h3]; exact g2
  · rw [h4]; exact g3

/-- C16: on release of a drag with start index `i`, card width `W` and displacement
`moved`, whatever the arithmetic of the host, `handleMouseUp` (with
`moved = currentX - startX`) and `handleTouchEnd` (with
`moved = touchEndX - touchStartX`) both resolve the index by the snap rule: one step
in the drag direction when `|moved| > W/3` and the bound allows it, else `i`; for
the same `moved` they give the same index. For `W = 300` (so that `W/3` is 100),
`i = 2` and at least 4 slides, `moved = -150` gives 3 and `moved = -50` gives 2. -/
theorem drag_release_snaps (fp : HostArith) (s : CarouselState) (clientX rectWidth : ℚ)
    (h : s.isDragging = true) :
    (handleMouseUpOn fp rectWidth s).index
        = snapIndexOn fp s.index s.totalCards (getCardWidthOn fp s.cardsLength rectWidth)
            (fp.sub s.currentX s.startX)
      ∧ (handleTouchEndOn fp clientX rectWidth s).index
        = snapIndexOn fp s.index s.totalCards (getCardWidthOn fp s.cardsLength rectWidth)
            (fp.sub clientX s.touchStartX)
      ∧ (fp.sub s.currentX s.startX = fp.sub clientX s.touchStartX →
          (handleMouseUpOn fp rectWidth s).index
            = (handleTouchEndOn fp clientX rectWidth s).index)
      ∧ (∀ (i L : Int) (W moved : ℚ),
          (|moved| > fp.div W 3 → moved < 0 → i < L - 1 → snapIndexOn fp i L W moved = i + 1)
          ∧ (|moved| > fp.div W 3 → moved < 0 → ¬ i < L - 1 → snapIndexOn fp i L W moved = i)
          ∧ (|moved| > fp.div W 3 → moved > 0 → 0 < i → snapIndexOn fp i L W moved = i - 1)
          ∧ (|moved| > fp.div W 3 → moved > 0 → ¬ 0 < i → snapIndexOn fp i L W moved = i)
          ∧ (¬ |moved| > fp.div W 3 → snapIndexOn fp i L W moved = i))
      ∧ (fp.div 300 3 = 100 → ∀ L : Int, 4 ≤ L →
          snapIndexOn fp 2 L 300 (-150) = 3 ∧ snapIndexOn fp 2 L 300 (-50) = 2)
      ∧ (s.index = 2 → 4 ≤ s.totalCards →
          getCardWidthOn fp s.cardsLength rectWidth = 300 → fp.div 300 3 = 100 →
          (fp.sub s.currentX s.startX = -150 → (handleMouseUpOn fp rectWidth s).index = 3)
          ∧ (fp.sub s.currentX s.startX = -50 → (handleMouseUpOn fp rectWidth s).index = 2)
          ∧ (fp.sub clientX s.touchStartX = -150 →
              (handleTouchEndOn fp clientX rectWidth s).index = 3)
          ∧ (fp.sub clientX s.touchStartX = -50 →
              (handleTouchEndOn fp clientX rectWidth s).index = 2))
      ∧ handleMouseUpOn exactArith rectWidth s = handleMouseUp rectWidth s
      ∧ handleTouchEndOn exactArith clientX rectWidth s
        = handleTouchEnd clientX rectWidth s := by
  have rule : ∀ (i L : Int) (W moved : ℚ),
      (|moved| > fp.div W 3 → moved < 0 → i < L - 1 → snapIndexOn fp i L W moved = i + 1)
      ∧ (|moved| > fp.div W 3 → moved < 0 → ¬ i < L - 1 → snapIndexOn fp i L W moved = i)
      ∧ (|moved| > fp.div W 3 → moved > 0 → 0 < i → snapIndexOn fp i L W moved = i - 1)
      ∧ (|moved| > fp.div W 3 → moved > 0 → ¬ 0 < i → snapIndexOn fp i L W moved = i)
      ∧ (¬ |moved| > fp.div W 3 → snapIndexOn fp i L W moved = i) := by
    intro i L W moved
    refine ⟨?_, ?_, ?_, ?_, ?_⟩
    · intro h1 h2 h3
      simp only [snapIndexOn, h1, h2, h3, if_true]
    · intro h1 h2 h3
      simp only [snapIndexOn, h1, h2, h3, if_true, if_false]
    · intro h1 h2 h3
      have : ¬ moved < 0 := not_lt.mpr h2.le
      simp only [snapIndexOn, h1, h2, h3, this, if_true, if_false]
    · intro h1 h2 h3
      have : ¬ moved < 0 := not_lt.mpr h2.le
      simp only [snapIndexOn, h1, h2, h3, this, if_true, if_false]
    · intro h1
      simp only [snapIndexOn, h1, if_false]
  have scenario : fp.div 300 3 = 100 → ∀ L : Int, 4 ≤ L →
      snapIndexOn fp 2 L 300 (-150) = 3 ∧ snapIndexOn fp 2 L 300 (-50) = 2 := by
    intro hdiv L hL
    constructor
    · have h1 : |(-150 : ℚ)| > fp.div 300 3 := by rw [hdiv]; norm_num [abs_of_neg]
      have h2 : (2 : Int) < L - 1 := by omega
      rw [(rule 2 L 300 (-150)).1 h1 (by norm_num) h2]
      norm_num
    · have h1 : ¬ |(-50 : ℚ)| > fp.div 300 3 := by rw [hdiv]; norm_num [abs_of_neg]
      exact (rule 2 L 300 (-50)).2.2.2.2 h1
  have hm := handleMouseUpOn_index fp rectWidth s h
  have ht := handleTouchEndOn_index fp clientX rectWidth s h
  refine ⟨hm, ht, ?_, rule, scenario, ?_, rfl, rfl⟩
  · intro he
    rw [hm, ht, he]
  · intro hi hL hW hdiv
    rw [hm, ht, hi, hW]
    refine ⟨?_, ?_, ?_, ?_⟩ <;> intro hmv <;> rw [hmv]
    · exact (scenario hdiv _ hL).1
    · exact (scenario hdiv _ hL).2
    · exact (scenario hdiv _ hL).1
    · exact (scenario hdiv _ hL).2

theorem drag_release_snaps_witness :
    sevenCardsDragged.isDragging = true
      ∧ (handleMouseUpOn exactArith 276 sevenCardsDragged).index
        = snapIndexOn exactArith sevenCardsDragged.index sevenCardsDragged.totalCards
            (getCardWidthOn exactArith sevenCardsDragged.cardsLength 276)
            (exactArith.sub sevenCardsDragged.currentX sevenCardsDragged.startX)
      ∧ snapIndexOn exactArith 2 5 300 (-150) = 3
      ∧ snapIndexOn exactArith 2 5 300 (-50) = 2 :=
  ⟨by decide, (drag_release_snaps exactArith sevenCardsDragged 350 276 (by decide)).1,
    (drag_release_snaps exactArith sevenCardsDragged 350 276 (by decide)).2.2.2.2.1
      (by norm_num [exactArith]) 5 (by decide)⟩

/-- C17 (as stated, refuted): a carousel of two cards (`logicalSlideCount = 0`) is
dragged to the right by 300 right after its first autoplay tick, at index 1; the
release moves the index to 0, which is not in `0 .. logicalSlideCount - 1`. All the
numbers of the run are small integers: any host arithmetic that computes
`276 + 24 = 300`, `400 - 100 = 300` and `300 / 3 = 100` gives the same release. -/
theorem drag_release_leaves_bounds :
    twoCardsDragged.isDragging = true
      ∧ twoCardsDragged.cardsLength = 2
      ∧ twoCardsDragged.totalCards = 0
      ∧ twoCardsDragged.index = 1
      ∧ twoCardsDragged.startX = 100
      ∧ twoCardsDragged.currentX = 400
      ∧ (handleMouseUp 276 twoCardsDragged).index = 0
      ∧ (handleMouseUp 276 twoCardsDragged).index ≠ twoCardsDragged.index
      ∧ ¬ (handleMouseUp 276 twoCardsDragged).index ≤ twoCardsDragged.totalCards - 1
      ∧ (∀ fp : HostArith, fp.add 276 24 = 300 → fp.sub 400 100 = 300 →
          fp.div 300 3 = 100 →
          (handleMouseUpOn fp 276 twoCardsDragged).index = 0
            ∧ ¬ (handleMouseUpOn fp 276 twoCardsDragged).index
                ≤ twoCardsDragged.totalCards - 1) := by
  have hd : twoCardsDragged.isDragging = true := by decide
  have hL : twoCardsDragged.totalCards = 0 := by decide
  have hi : twoCardsDragged.index = 1 := by decide
  have hc : twoCardsDragged.cardsLength = 2 := by decide
  have hs : twoCardsDragged.startX = 100 := by
    simp [twoCardsDragged, runCarousel, CarouselEvent.apply, fireTimeout, carouselInit,
      startSlide, stopSlide, nextSlide, handleMouseDown, handleMouseMove, updatePosition,
      getCardWidth]
  have hx : twoCardsDragged.currentX = 400 := by
    simp [twoCardsDragged, runCarousel, CarouselEvent.apply, fireTimeout, carouselInit,
      startSlide, stopSlide, nextSlide, handleMouseDown, handleMouseMove, updatePosition,
      getCardWidth]
  have hgen : ∀ fp : HostArith, fp.add 276 24 = 300 → fp.sub 400 100 = 300 →
      fp.div 300 3 = 100 → (handleMouseUpOn fp 276 twoCardsDragged).index = 0 := by
    intro fp ha hsub hdiv
    rw [handleMouseUpOn_index fp 276 twoCardsDragged hd, hi, hL, hc, hs, hx, hsub]
    have hw : getCardWidthOn fp 2 276 = 300 := by
      simp only [getCardWidthOn]
      simpa using ha
    rw [hw]
    have h1 : |(300 : ℚ)| > fp.div 300 3 := by rw [hdiv]; norm_num
    have h2 : ¬ ((300 : ℚ) < 0) := by norm_num
    have h3 : (300 : ℚ) > 0 := by norm_num
    simp only [snapIndexOn, h1, h2, h3, if_true, if_false]
    norm_num
  have hr : (handleMouseUp 276 twoCardsDragged).index = 0 := by
    rw [← (handlers_on_exactArith 276 276 twoCardsDragged).1]
    exact hgen exactArith (by norm_num [exactArith]) (by norm_num [exactArith])
      (by norm_num [exactArith])
  refine ⟨hd, hc, hL, hi, hs, hx, hr, ?_, ?_, ?_⟩
  · rw [hr, hi]; decide
  · rw [hr, hL]; decide
  · intro fp ha hsub hdiv
    rw [hgen fp ha hsub hdiv, hL]
    exact ⟨rfl, by decide⟩

/-- C17 (amended): a drag release never moves the index out of bounds and never wraps
when it starts within bounds: from a start index with
`0 ≤ i ≤ logicalSlideCount`, whatever the arithmetic of the host, the card width and
the displacement, an index changed by `handleMouseUp` or `handleTouchEnd` lies in
`0 .. logicalSlideCount - 1`, and it is one step away from `i`; a release at index 0
with a positive displacement and a release at `logicalSlideCount - 1` with a
negative displacement leave the index unchanged. -/
theorem drag_release_in_bounds (fp : HostArith) (s : CarouselState) (clientX rectWidth : ℚ)
    (hd : s.isDragging = true) (h0 : 0 ≤ s.index) (h1 : s.index ≤ s.totalCards) :
    ((handleMouseUpOn fp rectWidth s).index ≠ s.index →
        0 ≤ (handleMouseUpOn fp rectWidth s).index
          ∧ (handleMouseUpOn fp rectWidth s).index ≤ s.totalCards - 1)
      ∧ ((handleTouchEndOn fp clientX rectWidth s).index ≠ s.index →
        0 ≤ (handleTouchEndOn fp clientX rectWidth s).index
          ∧ (handleTouchEndOn fp clientX rectWidth s).index ≤ s.totalCards - 1)
      ∧ ((handleMouseUpOn fp rectWidth s).index = s.index
          ∨ (handleMouseUpOn fp rectWidth s).index = s.index + 1
          ∨ (handleMouseUpOn fp rectWidth s).index = s.index - 1)
      ∧ ((handleTouchEndOn fp clientX rectWidth s).index = s.index
          ∨ (handleTouchEndOn fp clientX rectWidth s).index = s.index + 1
          ∨ (handleTouchEndOn fp clientX rectWidth s).index = s.index - 1)
      ∧ (s.index = 0 → 0 < fp.sub s.currentX s.startX →
          (handleMouseUpOn fp rectWidth s).index = s.index)
      ∧ (s.index = 0 → 0 < fp.sub clientX s.touchStartX →
          (handleTouchEndOn fp clientX rectWidth s).index = s.index)
      ∧ (s.index = s.totalCards - 1 → fp.sub s.currentX s.startX < 0 →
          (handleMouseUpOn fp rectWidth s).index = s.index)
      ∧ (s.index = s.totalCards - 1 → fp.sub clientX s.touchStartX < 0 →
          (handleTouchEndOn fp clientX rectWidth s).index = s.index) := by
  rw [handleMouseUpOn_index fp rectWidth s hd, handleTouchEndOn_index fp clientX rectWidth s hd]
  refine ⟨snapIndexOn_bounds fp _ _ _ _ h0 h1, snapIndexOn_bounds fp _ _ _ _ h0 h1,
    snapIndexOn_step fp _ _ _ _, snapIndexOn_step fp _ _ _ _, ?_, ?_, ?_, ?_⟩
  · intro hi hm
    rw [hi]
    exact snapIndexOn_first fp _ _ _ hm
  · intro hi hm
    rw [hi]
    exact snapIndexOn_first fp _ _ _ hm
  · intro hi hm
    rw [hi]
    exact snapIndexOn_last fp _ _ _ hm
  · intro hi hm
    rw [hi]
    exact snapIndexOn_last fp _ _ _ hm

theorem drag_release_in_bounds_witness :
    sevenCardsDragged.isDragging = true ∧ 0 ≤ sevenCardsDragged.index
      ∧ sevenCardsDragged.index ≤ sevenCardsDragged.totalCards
      ∧ ((handleMouseUpOn exactArith 276 sevenCardsDragged).index = sevenCardsDragged.index
          ∨ (handleMouseUpOn exactArith 276 sevenCardsDragged).index
            = sevenCardsDragged.index + 1
          ∨ (handleMouseUpOn exactArith 276 sevenCardsDragged).index
            = sevenCardsDragged.index - 1) :=
  ⟨by decide, by decide, by decide,
    (drag_release_in_bounds exactArith sevenCardsDragged 350 276 (by decide) (by decide)
      (by decide)).2.2.1⟩

/-- C18 (as stated, refuted): a carousel of five cards (`logicalSlideCount = 3`) after
three autoplay advances has the wraparound reset pending as its only timeout and the
index 3, which is not below `logicalSlideCount`; the reset then gives index 0 and
translation 0. -/
theorem index_at_upper_bound_before_reset :
    fiveCardsAtEnd.totalCards = 3
      ∧ fiveCardsAtEnd.timeouts = [CarouselTimeout.wrapReset]
      ∧ fiveCardsAtEnd.index = 3
      ∧ ¬ fiveCardsAtEnd.index < fiveCardsAtEnd.totalCards
      ∧ (fireTimeout 0 fiveCardsAtEnd).index = 0
      ∧ (fireTimeout 0 fiveCardsAtEnd).transform = 0 := by
  refine ⟨by decide, by decide, by decide, by decide, by decide, ?_⟩
  have ht : fiveCardsAtEnd.timeouts[0]? = some CarouselTimeout.wrapReset := by decide
  simp only [fireTimeout, ht, wrapReset]

/-- C18 (amended): every autoplay advance from an index in `[0, logicalSlideCount)`
leaves, right after the advance, `0 < CarouselIndex ≤ logicalSlideCount`; it
schedules the wraparound reset if and only if the index has then reached
`logicalSlideCount`, so that the index equals `logicalSlideCount` (it is not below
it) when the reset is scheduled; the reset callback sets `CarouselIndex = 0` with
translation 0, in particular when it fires right after that advance. -/
theorem autoplay_advance_bounds (s : CarouselState) (rectWidth : ℚ)
    (hd : s.isDragging = false) (h0 : 0 ≤ s.index) (h1 : s.index < s.totalCards) :
    (nextSlide rectWidth s).index = s.index + 1
      ∧ 0 < (nextSlide rectWidth s).index
      ∧ (nextSlide rectWidth s).index ≤ s.totalCards
      ∧ (nextSlide rectWidth s).totalCards = s.totalCards
      ∧ ((nextSlide rectWidth s).timeouts = s.timeouts ++ [CarouselTimeout.wrapReset]
          ↔ (nextSlide rectWidth s).index = s.totalCards)
      ∧ ((nextSlide rectWidth s).timeouts = s.timeouts
          ↔ (nextSlide rectWidth s).index < s.totalCards)
      ∧ ((nextSlide rectWidth s).index = s.totalCards →
          (fireTimeout s.timeouts.length (nextSlide rectWidth s)).index = 0
            ∧ (fireTimeout s.timeouts.length (nextSlide rectWidth s)).transform = 0
            ∧ (fireTimeout s.timeouts.length (nextSlide rectWidth s)).timeouts = s.timeouts)
      ∧ (∀ t : CarouselState, (wrapReset t).index = 0 ∧ (wrapReset t).transform = 0
          ∧ (wrapReset t).initialTranslate = 0) := by
  rw [nextSlide_eq rectWidth s hd]
  have hne : s.timeouts ++ [CarouselTimeout.wrapReset] ≠ s.timeouts := by
    intro h
    have := congrArg List.length h
    simp at this
  refine ⟨rfl, ?_, ?_, rfl, ?_, ?_, ?_, fun t => ⟨rfl, rfl, rfl⟩⟩
  · show 0 < s.index + 1
    omega
  · show s.index + 1 ≤ s.totalCards
    omega
  · show (if s.index + 1 ≥ s.totalCards then s.timeouts ++ [CarouselTimeout.wrapReset]
        else s.timeouts) = s.timeouts ++ [CarouselTimeout.wrapReset]
      ↔ s.index + 1 = s.totalCards
    by_cases h2 : s.index + 1 ≥ s.totalCards
    · simp only [h2, if_true, true_iff]
      omega
    · simp only [h2, if_false]
      constructor
      · intro h
        exact absurd h.symm hne
      · intro h
        omega
  · show (if s.index + 1 ≥ s.totalCards then s.timeouts ++ [CarouselTimeout.wrapReset]
        else s.timeouts) = s.timeouts
      ↔ s.index + 1 < s.totalCards
    by_cases h2 : s.index + 1 ≥ s.totalCards
    · simp only [h2, if_true]
      constructor
      · intro h
        exact absurd h hne
      · intro h
        omega
    · simp only [h2, if_false, true_iff]
      omega
  · intro h
    have h2 : s.index + 1 ≥ s.totalCards := by
      have : s.index + 1 = s.totalCards := h
      omega
    have hget : (s.timeouts ++ [CarouselTimeout.wrapReset])[s.timeouts.length]?
        = some CarouselTimeout.wrapReset := by
      simp
    have herase : (s.timeouts ++ [CarouselTimeout.wrapReset]).eraseIdx s.timeouts.length
        = s.timeouts := by
      rw [List.eraseIdx_append_of_length_le (le_refl _)]
      simp
    simp only [fireTimeout, h2, if_true, hget, wrapReset, herase, and_self]

theorem autoplay_advance_bounds_witness :
    (carouselInit 5).isDragging = false ∧ 0 ≤ (carouselInit 5).index
      ∧ (carouselInit 5).index < (carouselInit 5).totalCards
      ∧ 0 < (nextSlide 276 (carouselInit 5)).index
      ∧ (nextSlide 276 (carouselInit 5)).index ≤ (carouselInit 5).totalCards :=
  ⟨by decide, by decide, by decide,
    (autoplay_advance_bounds (carouselInit 5) 276 (by decide) (by decide) (by decide)).2.1,
    (autoplay_advance_bounds (carouselInit 5) 276 (by decide) (by decide)
      (by decide)).2.2.1⟩

/-- C19: an autoplay tick while not dragging increments the index by exactly one and
sets the track translation to `-(new index) * cardWidth`, where `cardWidth` is the
measured width of the first card plus 24 (a carousel that was set up has a first
card); it schedules the wraparound reset if and only if the new index is at least
`logicalSlideCount`. -/
theorem nextSlide_advances (s : CarouselState) (rectWidth : ℚ)
    (hd : s.isDragging = false) (hc : s.cardsLength ≠ 0) :
    (nextSlide rectWidth s).index = s.index + 1
      ∧ getCardWidth s.cardsLength rectWidth = rectWidth + 24
      ∧ (nextSlide rectWidth s).transform
        = -(((nextSlide rectWidth s).index : Int) : ℚ) * (rectWidth + 24)
      ∧ (s.totalCards ≤ (nextSlide rectWidth s).index →
          (nextSlide rectWidth s).timeouts = s.timeouts ++ [CarouselTimeout.wrapReset])
      ∧ (¬ s.totalCards ≤ (nextSlide rectWidth s).index →
          (nextSlide rectWidth s).timeouts = s.timeouts)
      ∧ (∀ (track : Bool) (n : Nat) (carousel prefersReducedMotion : Bool)
          (s0 : CarouselState) (events : List CarouselEvent),
          initReviewsAnimation track n carousel prefersReducedMotion = some s0 →
          (runCarousel events s0).cardsLength ≠ 0) := by
  have hw : getCardWidth s.cardsLength rectWidth = rectWidth + 24 := by
    simp [getCardWidth, hc]
  rw [nextSlide_eq rectWidth s hd, hw]
  refine ⟨rfl, rfl, rfl, ?_, ?_, ?_⟩
  · intro h
    have h2 : s.index + 1 ≥ s.totalCards := h
    simp only [h2, if_true]
  · intro h
    have h2 : ¬ s.index + 1 ≥ s.totalCards := h
    simp only [h2, if_false]
  · intro track n carousel prm s0 events h
    exact cardsLength_ne_zero track n carousel prm s0 events h

theorem nextSlide_advances_witness :
    (carouselInit 5).isDragging = false ∧ (carouselInit 5).cardsLength ≠ 0
      ∧ (nextSlide 276 (carouselInit 5)).index = (carouselInit 5).index + 1 :=
  ⟨by decide, by decide,
    (nextSlide_advances (carouselInit 5) 276 (by decide) (by decide)).1⟩

/-- C20 (as stated, refuted): during the mouse drag of `sevenCardsPressed` (index 2,
base translation -600 recorded at the press with cards 300 apart) the resize
callback with cards now 176 px wide moves the base translation `initialTranslate`
of the drag to -400. -/
theorem resize_moves_drag_base :
    sevenCardsPressed.isDragging = true
      ∧ sevenCardsPressed.index = 2
      ∧ sevenCardsPressed.initialTranslate = -600
      ∧ (handleCarouselResize 176 sevenCardsPressed).initialTranslate = -400
      ∧ (handleCarouselResize 176 sevenCardsPressed).initialTranslate
        ≠ sevenCardsPressed.initialTranslate := by
  have h1 : sevenCardsPressed.initialTranslate = -600 := by
    simp [sevenCardsPressed, runCarousel, CarouselEvent.apply, fireTimeout, carouselInit,
      startSlide, stopSlide, nextSlide, handleMouseDown, getCardWidth]
    norm_num
  have h2 : (handleCarouselResize 176 sevenCardsPressed).initialTranslate = -400 := by
    have hi : sevenCardsPressed.index = 2 := by decide
    have hc : sevenCardsPressed.cardsLength = 7 := by decide
    simp only [handleCarouselResize, hi, hc, getCardWidth]
    norm_num
  refine ⟨by decide, by decide, h1, h2, ?_⟩
  rw [h1, h2]
  norm_num

/-- C20 (amended): the debounced resize callback of the carousel leaves the index
unchanged and sets the track translation, and with it the base translation
`initialTranslate`, to `-index * cardWidth` for the newly measured `cardWidth`; it
changes neither `isDragging`, the recorded pointer coordinates, the base translation
of a touch drag, nor the autoplay timer and the pending timeouts. -/
theorem handleCarouselResize_frame (s : CarouselState) (rectWidth : ℚ) :
    handleCarouselResize rectWidth s =
        { s with
          transform := -(s.index : ℚ) * getCardWidth s.cardsLength rectWidth,
          initialTranslate := -(s.index : ℚ) * getCardWidth s.cardsLength rectWidth }
      ∧ (handleCarouselResize rectWidth s).index = s.index
      ∧ (handleCarouselResize rectWidth s).transform
        = -(s.index : ℚ) * getCardWidth s.cardsLength rectWidth
      ∧ (handleCarouselResize rectWidth s).initialTranslate
        = -(s.index : ℚ) * getCardWidth s.cardsLength rectWidth
      ∧ (handleCarouselResize rectWidth s).isDragging = s.isDragging
      ∧ (handleCarouselResize rectWidth s).startX = s.startX
      ∧ (handleCarouselResize rectWidth s).currentX = s.currentX
      ∧ (handleCarouselResize rectWidth s).touchStartX = s.touchStartX
      ∧ (handleCarouselResize rectWidth s).touchInitialTranslate = s.touchInitialTranslate
      ∧ (handleCarouselResize rectWidth s).slideInterval = s.slideInterval
      ∧ (handleCarouselResize rectWidth s).intervals = s.intervals
      ∧ (handleCarouselResize rectWidth s).intervalsCreated = s.intervalsCreated
      ∧ (handleCarouselResize rectWidth s).timeouts = s.timeouts :=
  ⟨rfl, rfl, rfl, rfl, rfl, rfl, rfl, rfl, rfl, rfl, rfl, rfl, rfl⟩

/-- C21 (as stated, refuted): the pointer enters the running carousel
`sevenCardsStarted` (the timer stops), presses, and releases without displacement;
it never leaves. The cooldown timeout of the release then calls `startSlide`: the
autoplay timer runs during the hover and its next tick advances the index from 0
to 1. -/
theorem cooldown_restarts_during_hover :
    sevenCardsStarted.intervals = [1]
      ∧ (stopSlide sevenCardsStarted).intervals = []
      ∧ hoverAfterDrag.head? = some CarouselEvent.mouseEnter
      ∧ hoverAfterDrag.any isMouseLeave = false
      ∧ (runCarousel hoverAfterDrag sevenCardsStarted).intervals = [2]
      ∧ (runCarousel hoverAfterDrag sevenCardsStarted).index = 0
      ∧ ((CarouselEvent.tick 276).apply
          (runCarousel hoverAfterDrag sevenCardsStarted)).index = 1 := by
  have hrun : (runCarousel hoverAfterDrag sevenCardsStarted).intervals = [2]
      ∧ (runCarousel hoverAfterDrag sevenCardsStarted).index = 0
      ∧ (runCarousel hoverAfterDrag sevenCardsStarted).isDragging = false := by
    simp [hoverAfterDrag, sevenCardsStarted, runCarousel, CarouselEvent.apply, fireTimeout,
      carouselInit, startSlide, stopSlide, handleMouseDown, handleMouseMove, handleMouseUp,
      updatePosition, getCardWidth]
  refine ⟨by decide, by decide, rfl, by decide, hrun.1, hrun.2.1, ?_⟩
  simp only [CarouselEvent.apply, hrun.1, List.cons_ne_nil, if_false,
    nextSlide_eq 276 _ hrun.2.2, hrun.2.1]
  norm_num

/-- C21 (amended): in every state of a carousel that was set up, whatever the drag
state, mouse-enter stops the autoplay timer and mouse-leave restarts it; after a
mouse-enter, as long as no event calls `startSlide` (the mouse-leave, or the firing
of a pending `startSlide` timeout: the 100 ms of initialization, the cooldown of a
drag release), the timer is not running and a tick of the autoplay interval changes
nothing. -/
theorem hover_pauses_until_restart (cardsLength : Nat) (before during : List CarouselEvent) :
    ((CarouselEvent.mouseEnter.apply
          (runCarousel before (carouselInit cardsLength))).intervals = []
        ∧ (CarouselEvent.mouseEnter.apply
          (runCarousel before (carouselInit cardsLength))).slideInterval = none)
      ∧ ((CarouselEvent.mouseLeave.apply
          (runCarousel before (carouselInit cardsLength))).intervals
          = [(runCarousel before (carouselInit cardsLength)).intervalsCreated + 1]
        ∧ (CarouselEvent.mouseLeave.apply
          (runCarousel before (carouselInit cardsLength))).slideInterval
          = some ((runCarousel before (carouselInit cardsLength)).intervalsCreated + 1))
      ∧ (noRestart during
            (CarouselEvent.mouseEnter.apply
              (runCarousel before (carouselInit cardsLength))) = true →
          ∀ t ∈ runStates during
              (CarouselEvent.mouseEnter.apply
                (runCarousel before (carouselInit cardsLength))),
            t.intervals = [] ∧ t.slideInterval = none
              ∧ ∀ w : ℚ, (CarouselEvent.tick w).apply t = t) := by
  have hone := runCarousel_oneInterval before _ (carouselInit_oneInterval cardsLength)
  have hstop := stopSlide_paused _ hone
  refine ⟨hstop, startSlide_running _ hone, ?_⟩
  intro hn t ht
  obtain ⟨h1, h2⟩ := runStates_paused during _ hstop.1 hstop.2 hn t ht
  refine ⟨h1, h2, ?_⟩
  intro w
  simp only [CarouselEvent.apply, h1, if_true]

theorem hover_pauses_until_restart_witness :
    noRestart [CarouselEvent.mouseDown 500 276, CarouselEvent.mouseUp 276,
          CarouselEvent.tick 276]
        (CarouselEvent.mouseEnter.apply
          (runCarousel [CarouselEvent.timeout 0] (carouselInit 7))) = true
      ∧ ∀ t ∈ runStates [CarouselEvent.mouseDown 500 276, CarouselEvent.mouseUp 276,
            CarouselEvent.tick 276]
          (CarouselEvent.mouseEnter.apply
            (runCarousel [CarouselEvent.timeout 0] (carouselInit 7))),
        t.intervals = [] ∧ t.slideInterval = none
          ∧ ∀ w : ℚ, (CarouselEvent.tick w).apply t = t :=
  ⟨by decide,
    (hover_pauses_until_restart 7 [CarouselEvent.timeout 0]
      [CarouselEvent.mouseDown 500 276, CarouselEvent.mouseUp 276,
        CarouselEvent.tick 276]).2.2 (by decide)⟩

/-- C22 (the code at the failing input): a carousel of five cards has just advanced
to index 3 and scheduled its wraparound reset; the user presses at `clientX = 500`
and drags to 450, so that the track follows at -950. While `isDragging` is true a
tick of the autoplay interval changes nothing, but the pending reset, when it fires,
sets the index to 0 and the track translation to 0. -/
theorem reset_fires_during_drag :
    fiveCardsDragged.isDragging = true
      ∧ fiveCardsDragged.index = 3
      ∧ fiveCardsDragged.transform = -950
      ∧ fiveCardsDragged.timeouts = [CarouselTimeout.wrapReset]
      ∧ (∀ w : ℚ, nextSlide w fiveCardsDragged = fiveCardsDragged)
      ∧ (fireTimeout 0 fiveCardsDragged).isDragging = true
      ∧ (fireTimeout 0 fiveCardsDragged).index = 0
      ∧ (fireTimeout 0 fiveCardsDragged).transform = 0 := by
  have hd : fiveCardsDragged.isDragging = true := by decide
  have ht : fiveCardsDragged.timeouts = [CarouselTimeout.wrapReset] := by decide
  have ht0 : fiveCardsDragged.timeouts[0]? = some CarouselTimeout.wrapReset := by
    rw [ht]; rfl
  have hx : fiveCardsDragged.transform = -950 := by
    simp [fiveCardsDragged, fiveCardsAtEnd, runCarousel, CarouselEvent.apply, fireTimeout,
      carouselInit, startSlide, stopSlide, nextSlide, handleMouseDown, handleMouseMove,
      updatePosition, getCardWidth]
    norm_num
  refine ⟨hd, by decide, hx, ht, ?_, ?_, ?_, ?_⟩
  · intro w
    simp only [nextSlide, hd, if_true]
  · simp only [fireTimeout, ht0, wrapReset]
    exact hd
  · simp only [fireTimeout, ht0, wrapReset]
  · simp only [fireTimeout, ht0, wrapReset]

/-- C23 (the code at the failing input): on the carousel `sevenCardsStarted` (index 0,
cards 300 apart, no drag so far, `currentX = 0`) a mouse press at `clientX = 500`
followed by a release with no move in between is resolved with
`moved = currentX - startX = -500`, and the index goes from 0 to 1. -/
theorem press_release_advances_index :
    sevenCardsStarted.index = 0
      ∧ (handleMouseDown 500 276 sevenCardsStarted).isDragging = true
      ∧ (handleMouseDown 500 276 sevenCardsStarted).currentX
          - (handleMouseDown 500 276 sevenCardsStarted).startX = -500
      ∧ (handleMouseUp 276 (handleMouseDown 500 276 sevenCardsStarted)).index = 1 := by
  have h : (handleMouseDown 500 276 sevenCardsStarted).currentX
        - (handleMouseDown 500 276 sevenCardsStarted).startX = -500
      ∧ (handleMouseUp 276 (handleMouseDown 500 276 sevenCardsStarted)).index = 1 := by
    simp [sevenCardsStarted, runCarousel, CarouselEvent.apply, fireTimeout, carouselInit,
      startSlide, stopSlide, handleMouseDown, handleMouseUp, getCardWidth]
    norm_num
  exact ⟨by decide, by decide, h.1, h.2⟩

/-- C24: when the pool holds no identifier twice, uniqueness of the VisibleSet is an
invariant of the gallery: the selection made at page load has no duplicate; from a
duplicate-free VisibleSet every `switchRandomImage` (single swap or full reset) and
every resize callback gives a duplicate-free VisibleSet and keeps the pool, for all
draws and viewport widths; so every reachable state has a duplicate-free
VisibleSet. -/
theorem visibleUnique_is_invariant (s : GalleryState) (hp : s.allImages.Nodup) :
    (∀ (container : Bool) (manifest : Option (List ImageName)) (width : Nat)
        (prefersReducedMotion : Bool) (rng : Rng),
        s = loadGalleryAssets container manifest width prefersReducedMotion rng
          GalleryState.initial → VisibleUnique s)
      ∧ (VisibleUnique s → ∀ (width : Nat) (rng : Rng),
          VisibleUnique (switchRandomImage width rng s)
            ∧ (switchRandomImage width rng s).allImages = s.allImages)
      ∧ (VisibleUnique s → ∀ (container : Bool) (width : Nat) (rng : Rng),
          VisibleUnique (handleGalleryResize container width rng s)
            ∧ (handleGalleryResize container width rng s).allImages = s.allImages)
      ∧ (Reachable s → VisibleUnique s) := by
  refine ⟨?_, ?_, ?_, fun hr => hr.visibleUnique hp⟩
  · intro container manifest width prm rng hs
    rw [hs] at hp ⊢
    exact loadGalleryAssets_unique container manifest width prm rng hp
  · intro hv width rng
    exact ⟨switchRandomImage_unique width rng s hp hv, switchRandomImage_allImages width rng s⟩
  · intro hv container width rng
    exact ⟨handleGalleryResize_unique container width rng s hp hv,
      handleGalleryResize_allImages container width rng s⟩

theorem visibleUnique_is_invariant_witness :
    fiveLoaded.allImages.Nodup ∧ Reachable fiveLoaded ∧ VisibleUnique fiveLoaded :=
  ⟨by decide, fiveLoaded_rotationReachable.reachable,
    (visibleUnique_is_invariant fiveLoaded (by decide)).2.2.2
      fiveLoaded_rotationReachable.reachable⟩

/-- C25: after initialization and any sequence of events (ticks, timeouts, hover
enter and leave, mouse and touch drags, resize) at most one autoplay interval is
live, and the live intervals are exactly the one `slideInterval` names; `startSlide`
leaves exactly the interval it has just created. -/
theorem at_most_one_autoplay_interval (cardsLength : Nat) (events : List CarouselEvent) :
    (runCarousel events (carouselInit cardsLength)).intervals.length ≤ 1
      ∧ (runCarousel events (carouselInit cardsLength)).intervals
        = (runCarousel events (carouselInit cardsLength)).slideInterval.toList
      ∧ (startSlide (runCarousel events (carouselInit cardsLength))).intervals
        = [(runCarousel events (carouselInit cardsLength)).intervalsCreated + 1]
      ∧ (startSlide (runCarousel events (carouselInit cardsLength))).slideInterval
        = some ((runCarousel events (carouselInit cardsLength)).intervalsCreated + 1) := by
  have hone := runCarousel_oneInterval events _ (carouselInit_oneInterval cardsLength)
  have hrun := startSlide_running _ hone
  refine ⟨?_, hone, hrun.1, hrun.2⟩
  unfold OneInterval at hone
  rw [hone]
  cases (runCarousel events (carouselInit cardsLength)).slideInterval <;> simp

/-- C6: `shuffleArray` returns a permutation of its input, of the same length (the
input, copied on entry, is the unchanged argument); the result is obtained by the
swaps of positions `i` and `j` for `i` from the last index down to 1, each `j`
satisfying `0 ≤ j ≤ i`. -/
theorem shuffleArray_permutation {α : Type} (array : List α) (rng : Rng) :
    (shuffleArray array rng).Perm array
      ∧ (shuffleArray array rng).length = array.length
      ∧ shuffleArray array rng
          = (shuffleSteps rng 0 (array.length - 1)).foldl
              (fun b p => swapAt b p.1 p.2) array
      ∧ (shuffleSteps rng 0 (array.length - 1)).map Prod.fst
          = (List.range' 1 (array.length - 1)).reverse
      ∧ ∀ p ∈ shuffleSteps rng 0 (array.length - 1),
          0 ≤ p.2 ∧ p.2 ≤ p.1 ∧ p.1 < array.length := by
  refine ⟨shuffleArray_perm array rng, (shuffleArray_perm array rng).length_eq,
    shuffleLoop_eq_foldl rng _ _ _, shuffleSteps_fst rng _ _, ?_⟩
  intro p hp
  have := shuffleSteps_snd_le rng _ _ p hp
  omega

end MoxVox
